import Mathlib

/-!
Shallow embedding of the pyang-to-protobuf compiler plugin
(`tools/pyang_plugins/protobuf.py`) of sonic-net/sonic-gnmi, together with
theorems settling the specification's claims about it.

The statement tree handed to the plugin by the pyang frontend is modelled by
`Stmt`; the frontend facilities the plugin calls into (`statements.search_typedef`,
`util.prefix_to_module`, the pre-validated leafref target of
`statements.validate_leafref_path`, the ancestry-walking `mk_path_str`, and the
jinja template files which are not part of the sources) are modelled as an
explicit environment `Env`.  Python's in-place mutation is modelled by value
threading; `sys.exit(2)`, uncaught exceptions and fuel exhaustion are the
constructors of `Abort`.  The filesystem is a map from path strings to file
contents plus a log of the writes actually performed.
-/

/-! ### Python string helpers -/

/-- Python `str.capitalize`: first character uppercased, all others lowercased. -/
def pyCapitalize (s : String) : String :=
  match s.data with
  | [] => ""
  | c :: rest => String.mk (c.toUpper :: rest.map Char.toLower)

/-- Worker for `pyTitle`: an alphabetic character is uppercased when the previous
character was not alphabetic, lowercased otherwise (ASCII behaviour of
Python's `str.title`). -/
def pyTitleGo : List Char → Bool → List Char
  | [], _ => []
  | c :: rest, prevAlpha =>
    if c.isAlpha then (if prevAlpha then c.toLower else c.toUpper) :: pyTitleGo rest true
    else c :: pyTitleGo rest false

/-- Python `str.title` (ASCII). -/
def pyTitle (s : String) : String := String.mk (pyTitleGo s.data false)

/-- Worker for `collapseSep`: `re.sub(r"(_|-)+", " ", ·)`, i.e. every maximal
run of `_`/`-` becomes a single space.  The boolean records whether we are
inside such a run. -/
def collapseSepGo : List Char → Bool → List Char
  | [], _ => []
  | c :: rest, inRun =>
    if c = '_' || c = '-' then
      (if inRun then [] else [' ']) ++ collapseSepGo rest true
    else c :: collapseSepGo rest false

/-- `re.sub(r"(_|-)+", " ", s)`. -/
def collapseSep (s : String) : String := String.mk (collapseSepGo s.data false)

/-- `snake_to_camel` from the plugin:
`sub(r"(_|-)+", " ", word).title().replace(" ", "")`. -/
def snake_to_camel (word : String) : String :=
  String.mk ((pyTitle (collapseSep word)).data.filter (fun c => c ≠ ' '))

/-- Python `str.replace` for the single-character patterns the plugin uses
(`.replace('-','_')` and the no-op `.replace('-','-')`). -/
def pyReplaceChar (s : String) (old new : Char) : String :=
  String.mk (s.data.map (fun c => if c = old then new else c))

/-- `os.path.join` for the relative two-argument joins the plugin performs. -/
def joinPath (a b : String) : String := a ++ "/" ++ b

/-- Worker for `splitOnChar`: split a character list at every separator. -/
def splitOnCharGo (sep : Char) : List Char → List Char → List (List Char)
  | [], cur => [cur.reverse]
  | c :: rest, cur =>
    if c = sep then cur.reverse :: splitOnCharGo sep rest []
    else splitOnCharGo sep rest (c :: cur)

/-- Python `s.split(sep)` for a one-character separator. -/
def splitOnChar (s : String) (sep : Char) : List String :=
  (splitOnCharGo sep s.data []).map String.mk

/-- Python `xpath.split("/")[-1]`. -/
def lastSegment (s : String) : String := (splitOnChar s '/').getLastD ""

/-- Python `seg.split(":")[0]`. -/
def headColon (s : String) : String := (splitOnChar s ':').headD ""

/-- Worker for `splitColon`: the characters before and after the first colon. -/
def splitColonGo : List Char → Option (List Char × List Char)
  | [] => none
  | c :: rest =>
    if c = ':' then some ([], rest)
    else (splitColonGo rest).map (fun p => (c :: p.1, p.2))

/-- Python `name.find(":") == -1 ? (None, name) : name.split(':', 1)`. -/
def splitColon (s : String) : Option String × String :=
  match splitColonGo s.data with
  | none => (none, s)
  | some (a, b) => (some (String.mk a), String.mk b)

/-- Python `c in s` for a single character. -/
def strHasChar (s : String) (c : Char) : Bool := s.data.contains c

/-- Python `s.startswith(pre)`. -/
def pyStartsWith (s pre : String) : Bool := pre.data.isPrefixOf s.data

/-- Python `int(s)` on the integer literals the frontend guarantees. -/
def digitsToNat : List Char → Nat → Nat
  | [], acc => acc
  | c :: rest, acc => digitsToNat rest (acc * 10 + (c.toNat - '0'.toNat))

/-- Python `int(s)` for an optionally negated decimal literal. -/
def pyIntOfString (s : String) : Int :=
  match s.data with
  | '-' :: rest => - (digitsToNat rest 0 : Int)
  | l => (digitsToNat l 0 : Int)

/-- `enum.arg[0].isdigit()`; the frontend guarantees a nonempty argument. -/
def firstCharDigit (s : String) : Bool :=
  match s.data with
  | [] => false
  | c :: _ => c.isDigit

/-- Whether `needle` occurs contiguously in `hay` (used only to state claims
about diagnostics; not part of the plugin). -/
def strContains (hay needle : String) : Bool :=
  (List.range (hay.data.length + 1)).any (fun i => needle.data.isPrefixOf (hay.data.drop i))

/-! ### The statement tree supplied by the frontend -/

/-- A parsed schema statement as the frontend hands it to the plugin: keyword,
argument, the owning module's name and prefix string (`i_module.i_modulename`,
`i_module.i_prefix`), and the substatement list.  Following §6 of the spec the
frontend supplies one child list; the plugin's uses of `substmts` and
`i_children` are both modelled by `substmts`. -/
inductive Stmt where
  | mk (keyword : String) (arg : String) (modName : String) (modPfx : String)
       (substmts : List Stmt)

def Stmt.keyword : Stmt → String | .mk k _ _ _ _ => k
def Stmt.arg : Stmt → String | .mk _ a _ _ _ => a
def Stmt.modName : Stmt → String | .mk _ _ m _ _ => m
def Stmt.modPfx : Stmt → String | .mk _ _ _ p _ => p
def Stmt.substmts : Stmt → List Stmt | .mk _ _ _ _ s => s

/-- pyang `stmt.search(kw)` restricted to a keyword: the substatements with
that keyword, in order. -/
def Stmt.search (s : Stmt) (kw : String) : List Stmt :=
  s.substmts.filter (fun c => c.keyword = kw)

/-- pyang `stmt.search_one(kw)`: the first substatement with that keyword. -/
def Stmt.searchOne (s : Stmt) (kw : String) : Option Stmt :=
  (s.search kw).head?

/-! ### The compiled intermediate tree -/

/-- `YangLeaf` from the plugin (the unused `description` field is omitted;
`enumeration_names` is Python's set of member names, modelled as the
duplicate-free list of keys in insertion order). -/
structure YangLeaf where
  name : String
  type : String
  json_name : String
  leaf_list : Bool
  enumeration : List String
  enumeration_names : List String
deriving DecidableEq, Repr

/-- `YangContainer` and `YangList` from the plugin.  The two Python classes
have the same shape and their printers have identical bodies, so both are
modelled by this one node type. -/
inductive YangNode where
  | mk (name : String) (containers : List YangNode) (ylist : List YangNode)
       (leafs : List YangLeaf)

def YangNode.name : YangNode → String | .mk n _ _ _ => n
def YangNode.containers : YangNode → List YangNode | .mk _ c _ _ => c
def YangNode.ylist : YangNode → List YangNode | .mk _ _ y _ => y
def YangNode.leafs : YangNode → List YangLeaf | .mk _ _ _ l => l

/-- A fresh `YangContainer()`/`YangList()` with a name. -/
def mkNode (name : String) : YangNode := .mk name [] [] []

/-- `YangRpc` from the plugin (the unused `url` field is omitted). -/
structure YangRpc where
  mod_name : String
  name : String
  name_without_parent : String
  input : String
  output : String
  rpc_url : String
  input_empty : Bool
  output_empty : Bool
deriving DecidableEq, Repr

/-- The per-module `Protobuf` object (the unused `tree`, `enums` and
`services` fields are omitted). -/
structure Protobuf where
  module_name : String
  module_name_plain : String
  containers : List YangNode
  ylist : List YangNode
  leafs : List YangLeaf
  rpcs : List YangRpc
  headers : List String
  has_empty : Bool
  has_value_type : Bool

/-- `Protobuf.__init__`. -/
def Protobuf.init (module_name : String) : Protobuf :=
  let plain := pyReplaceChar module_name '-' '_'
  { module_name := snake_to_camel plain
    module_name_plain := plain
    containers := [], ylist := [], leafs := [], rpcs := [], headers := []
    has_empty := false, has_value_type := false }

/-- `Protobuf.set_headers`. -/
def set_headers (p : Protobuf) : Protobuf :=
  { p with headers :=
      p.headers
      ++ ["syntax = \"proto3\";", "\npackage gnoi." ++ p.module_name ++ ";\n"]
      ++ (if p.has_value_type then ["import \"google/protobuf/struct.proto\";"] else []) }

/-! ### The frontend/template environment -/

/-- Modelled from the spec: the facilities the plugin obtains from outside the
source file under verification.  `mkPath` stands for `mk_path_str`, whose
result depends on the statement ancestry and per-ancestor module metadata that
a subtree-local `Stmt` does not carry; its output enters the compiled tree
only as opaque `json_name`/`rpc_url` strings.  `searchTypedefMod` /
`searchTypedefLocal` model `statements.search_typedef` at module scope and in
the local hierarchy, `pfxToModule` models `util.prefix_to_module` (module
identified by name), and `leafrefTarget` is the pre-validated reference target
of `statements.validate_leafref_path` (§6 frontend contract).  The `render*`
fields model the jinja template files, which are absent from the sources. -/
structure Env where
  mkPath : Stmt → String
  searchTypedefMod : String → String → Option Stmt
  searchTypedefLocal : Stmt → String → Option Stmt
  pfxToModule : String → String → Option String
  leafrefTarget : Stmt → Option Stmt
  renderRpcImports : String → String → String
  renderRpcStub : String → String → Bool → Bool → String
  renderRegister : List String → String → List (String × String) → String
  gnoiyangContent : String
  renderClient : List YangRpc → String → List (String × List YangRpc) → List (String × String) → String

/-! ### Type resolution (`get_type`, `handle_leafref`, `get_protobuf_type`) -/

/-- How a plugin call ends abnormally: `exit2` is `sys.exit(2)` after printing
the given diagnostic, `crash` is an uncaught Python exception (e.g. unpacking
`None`, or an attribute error), `fuelOut` is exhaustion of the recursion
budget of this embedding (the real code would loop or recurse forever). -/
inductive Abort where
  | exit2 (msg : String)
  | crash
  | fuelOut
deriving DecidableEq, Repr

/-- Result of `get_type`/`get_protobuf_type`: `ok` is the `(t.arg, t)` tuple,
`pyNone` is the bare `return` (the function returns Python `None`),
`abort` ends the process. -/
inductive Res where
  | ok (typ : String) (stmt : Stmt)
  | pyNone
  | abort (a : Abort)

/-- The closed set of atomic base type keywords from `get_type`. -/
def base_types : List String :=
  ["int8", "int16", "int32", "int64",
   "uint8", "uint16", "uint32", "uint64",
   "decimal64", "string", "boolean", "enumeration",
   "bits", "binary", "leafref", "identityref", "empty",
   "union", "instance-identifier"]

/-- One iteration of `get_type`'s typedef-chasing `while` loop: split the
surface name at the first colon, resolve the owning module (local module when
the prefix is absent or equal to the local prefix, else an imported-module
lookup), search for the typedef (module scope first, then the local
hierarchy), and step to the typedef's own `type` statement.  `.inl` ends the
loop abnormally: `pyNone` is the bare `return` when the prefix maps to no
module, `exit2` the "Typedef not found" exit, `crash` a typedef without a
`type` substatement (the next loop iteration would dereference `None`). -/
def chase_step (env : Env) (t : Stmt) : Res ⊕ Stmt :=
  let pr := splitColon t.arg
  let name := pr.2
  let td? : Option (Option Stmt) :=
    match pr.1 with
    | none =>
      some (match env.searchTypedefMod t.modName name with
            | some td => some td
            | none => env.searchTypedefLocal t name)
    | some p =>
      if t.modPfx = p then
        some (match env.searchTypedefMod t.modName name with
              | some td => some td
              | none => env.searchTypedefLocal t name)
      else
        match env.pfxToModule t.modName p with
        | none => none
        | some pm => some (env.searchTypedefMod pm name)
  match td? with
  | none => .inl .pyNone
  | some none =>
      .inl (.abort (.exit2 ("Typedef  " ++ name ++ "  is not found, make sure all dependent modules are present")))
  | some (some td) =>
      match td.searchOne "type" with
      | none => .inl (.abort .crash)
      | some t' => .inr t'

/-- `get_type` (with `handle_leafref` inlined at the `leafref` case, exactly
as the source dispatches to it).  The state is either a fresh node whose
`type` substatement is still to be fetched (`.inl node`, also entered when
`handle_leafref` recurses into the reference target), or the pair of the
original node and the current type statement of the chasing loop
(`.inr (node, t)`).  `fuel` bounds the typedef/leafref chasing depth; pyang
guarantees the chains are acyclic (§9). -/
def get_type_go (env : Env) : Nat → Stmt ⊕ Stmt × Stmt → Res
  | 0, _ => .abort .fuelOut
  | fuel+1, .inl node =>
    match (if node.keyword = "type" then some node else node.searchOne "type") with
    | none => .abort .crash
    | some t => get_type_go env fuel (.inr (node, t))
  | fuel+1, .inr (node, t) =>
    if base_types.contains t.arg then
      if t.arg = "leafref" then
        -- `handle_leafref node`
        match env.leafrefTarget node with
        | none => .abort .crash
        | some tgt =>
          if tgt.keyword = "leaf" ∨ tgt.keyword = "leaf-list" then
            get_type_go env fuel (.inl tgt)
          else .abort (.exit2 "leafref not pointing to leaf/leaflist")
      else .ok t.arg t
    else
      match chase_step env t with
      | .inl r => r
      | .inr t' => get_type_go env fuel (.inr (node, t'))

/-- `ProtobufPlugin.get_type`. -/
def get_type (env : Env) (fuel : Nat) (node : Stmt) : Res :=
  get_type_go env fuel (.inl node)

/-- `ProtobufPlugin.protobuf_types_map` (a Python dict literal). -/
def protobuf_types_map : List (String × String) :=
  [("binary", "bytes"), ("bits", "bytes"), ("boolean", "bool"),
   ("decimal64", "sint64"), ("empty", "string"),
   ("int8", "int32"), ("int16", "int32"), ("int32", "int32"), ("int64", "int64"),
   ("string", "string"),
   ("uint8", "uint32"), ("uint16", "uint32"), ("uint32", "uint32"), ("uint64", "uint64"),
   ("union", "google.protobuf.Value"), ("enumeration", "enum"),
   ("identityref", "string"), ("instance_identifier", "string")]

/-- Dict lookup. -/
def lookupMap (m : List (String × String)) (k : String) : Option String :=
  (m.find? (fun p => p.1 = k)).map (fun p => p.2)

/-- `ProtobufPlugin.get_protobuf_type`.  When `get_type` returns `None`
(`pyNone`), the caller's tuple unpacking `yang_type, stmt = self.get_type(node)`
raises `TypeError`, modelled as `crash`. -/
def get_protobuf_type (env : Env) (fuel : Nat) (node : Stmt) : Res :=
  match get_type env fuel node with
  | .ok yt stmt =>
    let yt := pyReplaceChar yt '-' '_'
    (match lookupMap protobuf_types_map yt with
     | some p => .ok p stmt
     | none => .abort (.exit2 ("Error - No Proto type mapping for yang type " ++ yt)))
  | .pyNone => .abort .crash
  | .abort a => .abort a

/-! ### Enumeration compilation (`process_enumeration`) -/

/-- Python ordered-dict assignment `d[k] = v`: replaces in place when the key
exists, appends otherwise.  Values are `some i` for `int(val.arg)` and `none`
for the placeholder string `'0'`; they are never read back. -/
def dictInsert (d : List (String × Option Int)) (k : String) (v : Option Int) :
    List (String × Option Int) :=
  if d.any (fun p => p.1 = k) then d.map (fun p => if p.1 = k then (p.1, v) else p)
  else d ++ [(k, v)]

/-- The member loop of `process_enumeration`: reject a member name starting
with a digit or containing a hyphen; reject any member name already present in
the member-name set of a sibling leaf of type `enum`; otherwise record the
member (with its explicit `value` substatement, if any — the frontend
guarantees the value argument parses as an integer). -/
def peLoop (parentLeafs : List YangLeaf) :
    List Stmt → List (String × Option Int) → Option (List (String × Option Int))
  | [], d => some d
  | e :: rest, d =>
    if firstCharDigit e.arg || strHasChar e.arg '-' then none
    else if parentLeafs.any (fun s => s.type = "enum" && s.enumeration_names.contains e.arg) then none
    else
      let v : Option Int :=
        match e.searchOne "value" with
        | some val => some (pyIntOfString val.arg)
        | none => none
      peLoop parentLeafs rest (dictInsert d e.arg v)

/-- The second loop of `process_enumeration`:
`for key, value in enumerate(enumeration_dict)` iterates the dict *keys*, so
each member renders as `"<name> = <index> ;"` with indices `0, 1, 2, …`. -/
def declTags : List String → Nat → List String
  | [], _ => []
  | n :: rest, i => (n ++ " = " ++ toString i ++ " ;") :: declTags rest (i+1)

/-- `ProtobufPlugin.process_enumeration`: `none` models `return False`
(fallback to string); on success returns the leaf's `enumeration` strings and
its `enumeration_names`. -/
def process_enumeration (node : Stmt) (parentLeafs : List YangLeaf) :
    Option (List String × List String) :=
  match peLoop parentLeafs (node.search "enum") [] with
  | none => none
  | some d => some (declTags (d.map (fun p => p.1)) 0, d.map (fun p => p.1))

/-! ### Tree building (`process_leaf`, `process_children`) -/

/-- `ProtobufPlugin.process_leaf`.  Returns the compiled leaf (appended to the
parent by the caller, exactly as Python appends after the sibling scan) and
whether this leaf set the module's `has_value_type` flag. -/
def process_leaf (env : Env) (gf : Nat) (node : Stmt) (parentLeafs : List YangLeaf)
    (leaf_list : Bool) (node_name : String) : Except Abort (YangLeaf × Bool) :=
  match get_protobuf_type env gf node with
  | .abort a => .error a
  | .pyNone => .error .crash
  | .ok p_type stmt =>
    let hv := p_type = "google.protobuf.Value"
    let leaf : YangLeaf :=
      { name := pyReplaceChar node.arg '-' '-'   -- the source's no-op replace('-','-')
        type := p_type, json_name := node_name, leaf_list := leaf_list
        enumeration := [], enumeration_names := [] }
    if p_type = "enum" then
      match process_enumeration stmt parentLeafs with
      | some (e, ns) => .ok ({ leaf with enumeration := e, enumeration_names := ns }, hv)
      | none => .ok ({ leaf with type := "string" }, hv)
    else .ok (leaf, hv)

/-- `ProtobufPlugin.process_children` restricted to the call sites that occur
in the plugin's control flow (the parent is a `YangContainer`/`YangList`; an
`rpc` child would make the Python code dereference missing attributes, hence
`crash`).  Choice/case children are flattened into the same parent;
notification children are skipped; container/grouping and list children
produce a nested node plus a synthetic leaf; leafs/leaf-lists go through
`process_leaf`.  The boolean threads the module-level `has_value_type` flag
(the `current_proto` global).  `fuel` bounds the tree recursion depth; `gf`
is the typedef-chasing budget handed to `get_type`. -/
def processStmts (env : Env) (gf : Nat) :
    Nat → List Stmt → YangNode → Bool → Except Abort (YangNode × Bool)
  | 0, _, _, _ => .error .fuelOut
  | _+1, [], parent, hv => .ok (parent, hv)
  | fuel+1, ch :: rest, parent, hv =>
    if ch.keyword = "rpc" then .error .crash
    else if ch.keyword = "notification" then processStmts env gf fuel rest parent hv
    else if ch.keyword = "choice" ∨ ch.keyword = "case" then
      match processStmts env gf fuel ch.substmts parent hv with
      | .ok (p', hv') => processStmts env gf fuel rest p' hv'
      | .error e => .error e
    else
      let node_name := lastSegment (env.mkPath ch)
      if ch.keyword = "container" ∨ ch.keyword = "grouping" then
        match processStmts env gf fuel ch.substmts (mkNode (snake_to_camel ch.arg)) hv with
        | .ok (c, hv') =>
          let lc : YangLeaf :=
            { name := pyReplaceChar ch.arg '-' '_', type := c.name, json_name := node_name
              leaf_list := false, enumeration := [], enumeration_names := [] }
          processStmts env gf fuel rest
            (.mk parent.name (parent.containers ++ [c]) parent.ylist (parent.leafs ++ [lc])) hv'
        | .error e => .error e
      else if ch.keyword = "list" then
        match processStmts env gf fuel ch.substmts (mkNode (snake_to_camel ch.arg)) hv with
        | .ok (l, hv') =>
          let lc : YangLeaf :=
            { name := pyReplaceChar ch.arg '-' '_', type := l.name, json_name := node_name
              leaf_list := true, enumeration := [], enumeration_names := [] }
          processStmts env gf fuel rest
            (.mk parent.name parent.containers (parent.ylist ++ [l]) (parent.leafs ++ [lc])) hv'
        | .error e => .error e
      else if ch.keyword = "leaf" ∨ ch.keyword = "leaf-list" then
        match process_leaf env gf ch parent.leafs (ch.keyword = "leaf-list") node_name with
        | .ok (leaf, lv) =>
          processStmts env gf fuel rest
            (.mk parent.name parent.containers parent.ylist (parent.leafs ++ [leaf])) (hv || lv)
        | .error e => .error e
      else processStmts env gf fuel rest parent hv

/-! ### RPC extraction (`process_rpc`) -/

/-- `ProtobufPlugin.process_rpc`.  Always appends one request wrapper and one
response wrapper container and one `YangRpc` record to the parent `Protobuf`;
an absent or childless input/output substatement sets the corresponding empty
flag and `has_empty` instead of populating the wrapper. -/
def process_rpc (env : Env) (gf : Nat) (node : Stmt) (parent : Protobuf) :
    Except Abort Protobuf :=
  let rpc_url := env.mkPath node
  let rname := snake_to_camel (parent.module_name_plain ++ "_" ++ node.arg)
  let nwp := snake_to_camel node.arg
  let inName := snake_to_camel (node.arg ++ "_request")
  let outName := snake_to_camel (node.arg ++ "_response")
  -- input side: (c_input, input_empty, has_empty, has_value_type)
  let inputStep : Except Abort (YangNode × Bool × Bool × Bool) :=
    match node.searchOne "input" with
    | some inode =>
      if inode.substmts.isEmpty then
        .ok (mkNode inName, true, true, parent.has_value_type)
      else
        match processStmts env gf gf inode.substmts (mkNode "Input") parent.has_value_type with
        | .ok (ic, hv') =>
          let mod_name := headColon (lastSegment (env.mkPath inode))
          let lf : YangLeaf :=
            { name := "input", type := "Input", json_name := mod_name ++ ":input"
              leaf_list := false, enumeration := [], enumeration_names := [] }
          .ok (.mk inName [ic] [] [lf], false, parent.has_empty, hv')
        | .error e => .error e
    | none => .ok (mkNode inName, true, true, parent.has_value_type)
  match inputStep with
  | .error e => .error e
  | .ok (c_input, in_empty, he1, hv1) =>
    -- output side
    let outputStep : Except Abort (YangNode × Bool × Bool × Bool) :=
      match node.searchOne "output" with
      | some onode =>
        if onode.substmts.isEmpty then
          .ok (mkNode outName, true, true, hv1)
        else
          match processStmts env gf gf onode.substmts (mkNode "Output") hv1 with
          | .ok (oc, hv'') =>
            let mod_name := headColon (lastSegment (env.mkPath onode))
            let lf : YangLeaf :=
              { name := "output", type := "Output", json_name := mod_name ++ ":output"
                leaf_list := false, enumeration := [], enumeration_names := [] }
            .ok (.mk outName [oc] [] [lf], false, he1, hv'')
          | .error e => .error e
      | none => .ok (mkNode outName, true, true, hv1)
    match outputStep with
    | .error e => .error e
    | .ok (c_output, out_empty, he2, hv2) =>
      let yrpc : YangRpc :=
        { mod_name := parent.module_name, name := rname, name_without_parent := nwp
          input := inName, output := outName, rpc_url := rpc_url
          input_empty := in_empty, output_empty := out_empty }
      .ok { parent with
              containers := parent.containers ++ [c_input, c_output]
              rpcs := parent.rpcs ++ [yrpc]
              has_empty := he2, has_value_type := hv2 }

/-- The `for rpc in rpcs: self.process_rpc(rpc, proto)` loop of `emit`. -/
def processRpcs (env : Env) (gf : Nat) : List Stmt → Protobuf → Except Abort Protobuf
  | [], p => .ok p
  | r :: rest, p =>
    match process_rpc env gf r p with
    | .ok p' => processRpcs env gf rest p'
    | .error e => .error e

/-- Building one module's `Protobuf`: construct, process every `rpc`
statement, set the headers (the part of `emit` preceding any file write). -/
def buildProto (env : Env) (gf : Nat) (m : Stmt) : Except Abort Protobuf :=
  match processRpcs env gf (m.search "rpc") (Protobuf.init m.arg) with
  | .ok p => .ok (set_headers p)
  | .error e => .error e

/-! ### IDL text emission (`Protobuf.print_proto` and helpers) -/

/-- `'    ' * level`. -/
def indent (level : Nat) : String := String.mk (List.replicate (4 * level) ' ')

/-- `Protobuf._print_enumeration`. -/
def printEnumeration (ys : List String) (spaces : String) : String :=
  String.join (ys.map (fun e => spaces ++ "    " ++ e ++ "\n"))

/-- One iteration of the `for idx, l in enumerate(leafs)` loop of
`Protobuf._print_leaf`: the optional enum block (after which the source
mutates `l.type` to the capitalized leaf name, reflected in `ltype`), the
optional per-leaf wrapper `message` open/close, and the field line numbered
`idx + 1`. -/
def printLeafOne (l : YangLeaf) (idx : Nat) (spaces : String) (include_message : Bool) : String :=
  let leafspaces := spaces ++ "    "
  let enumPart :=
    if l.type = "enum" then
      leafspaces ++ "enum " ++ pyCapitalize (pyReplaceChar l.name '-' '_') ++ "\n"
      ++ leafspaces ++ "\x7b\n"
      ++ printEnumeration l.enumeration leafspaces
      ++ leafspaces ++ "\x7d\n"
    else ""
  let ltype := if l.type = "enum" then pyCapitalize (pyReplaceChar l.name '-' '_') else l.type
  let msgOpen :=
    if include_message then
      spaces ++ "message " ++ pyReplaceChar l.name '-' '_' ++ " " ++ spaces ++ "\x7b\n"
    else ""
  let fieldLine :=
    leafspaces ++ (if l.leaf_list then "repeated " else "") ++ ltype ++ " "
    ++ pyReplaceChar l.name '-' '_' ++ " = " ++ toString (idx + 1)
    ++ " [json_name = \"" ++ l.json_name ++ "\"];\n"
  let msgClose := if include_message then spaces ++ "\x7d\n" else ""
  enumPart ++ msgOpen ++ fieldLine ++ msgClose

/-- The `enumerate(leafs)` loop of `_print_leaf`, with the running index made
explicit. -/
def printLeafAux (spaces : String) (im : Bool) : List YangLeaf → Nat → String
  | [], _ => ""
  | l :: rest, idx => printLeafOne l idx spaces im ++ printLeafAux spaces im rest (idx + 1)

/-- `Protobuf._print_leaf`. -/
def print_leaf (leafs : List YangLeaf) (spaces : String) (im : Bool) : String :=
  printLeafAux spaces im leafs 0

/-- `Protobuf._print_container` and `Protobuf._print_list`, whose bodies are
identical: a `message` block containing the nested lists, the nested
containers, and the leaf fields.  `fuel` bounds the nesting depth. -/
def printNodeGo : Nat → YangNode → Nat → String
  | 0, _, _ => ""
  | fuel+1, c, level =>
    let spaces := indent level
    spaces ++ "message " ++ pyReplaceChar c.name '-' '_' ++ " " ++ "\x7b\n"
    ++ String.join (c.ylist.map (fun l => printNodeGo fuel l (level + 1)))
    ++ String.join (c.containers.map (fun i => printNodeGo fuel i (level + 1)))
    ++ print_leaf c.leafs spaces false
    ++ spaces ++ "\x7d\n"

/-- `Protobuf._print_rpc` (at its only call site, `level = 0`). -/
def print_rpc (p : Protobuf) : String :=
  let spaces := indent 0
  let rpc_space := spaces ++ "    "
  spaces ++ "service " ++ p.module_name ++ "Service " ++ "\x7b\n"
  ++ String.join (p.rpcs.map (fun r =>
       rpc_space ++ "rpc " ++ pyReplaceChar r.name_without_parent '-' '_'
       ++ "(" ++ pyReplaceChar r.input '-' '_' ++ ") returns("
       ++ pyReplaceChar r.output '-' '_' ++ ")" ++ " \x7b\x7d\n"))
  ++ spaces ++ "\x7d\n"

/-- `Protobuf.print_proto`. -/
def print_proto (fuel : Nat) (p : Protobuf) : String :=
  String.join (p.headers.map (fun h => h ++ "\n")) ++ "\n"
  ++ (if p.leafs.isEmpty then "" else print_leaf p.leafs "" true ++ "\n")
  ++ (if p.ylist.isEmpty then "" else String.join (p.ylist.map (fun l => printNodeGo fuel l 0)) ++ "\n")
  ++ (if p.containers.isEmpty then ""
      else String.join (p.containers.map (fun c => printNodeGo fuel c 0)) ++ "\n")
  ++ (if p.rpcs.isEmpty then "" else print_rpc p)

/-! ### The filesystem and the change-aware writer -/

/-- The filesystem: file contents by path, plus the log of paths actually
written (each `fp.write` appends one entry). -/
structure FS where
  disk : String → Option String
  log : List String

/-- `ProtobufPlugin.write_file`: read-compare-skip, write on a diff. -/
def write_file (fs : FS) (fn content : String) : Bool × FS :=
  let fileChanged :=
    match fs.disk fn with
    | some existing => existing != content
    | none => true
  if fileChanged then
    (true, ⟨fun g => if g = fn then some content else fs.disk g, fs.log ++ [fn]⟩)
  else (false, fs)

/-- An unconditional `open(fn, "w")` write (`_print_rpc_server_stub`). -/
def fsWrite (fs : FS) (fn content : String) : FS :=
  ⟨fun g => if g = fn then some content else fs.disk g, fs.log ++ [fn]⟩

/-- The three output directories (`--proto-outdir`, `--server-rpc-outdir`,
`--client-rpc-outdir`). -/
structure Ctx where
  outdir : String
  server_stub_outdir : String
  client_outdir : String

/-- The path of a module's `.proto` file. -/
def protoFnOf (ctx : Ctx) (plain : String) : String :=
  joinPath (joinPath ctx.outdir plain) (plain ++ ".proto")

/-- The path of a module's server-handler stub file. -/
def stubFn (ctx : Ctx) (p : Protobuf) : String :=
  joinPath (joinPath ctx.server_stub_outdir p.module_name_plain) (p.module_name_plain ++ ".go")

/-- `Protobuf._print_rpc_server_stub`'s rendered content. -/
def stub_content (env : Env) (p : Protobuf) : String :=
  env.renderRpcImports p.module_name p.module_name_plain
  ++ String.join (p.rpcs.map (fun r =>
       env.renderRpcStub r.name_without_parent r.rpc_url r.input_empty r.output_empty))

/-! ### The `emit` loop -/

/-- Python dict assignment `m[k] = v` for the `mod_name_map`. -/
def mapSet (m : List (String × String)) (k v : String) : List (String × String) :=
  if m.any (fun p => p.1 = k) then m.map (fun p => if p.1 = k then (p.1, v) else p)
  else m ++ [(k, v)]

/-- `if k not in mods_rpc_map: mods_rpc_map[k] = list()`. -/
def mrmEnsure (m : List (String × List YangRpc)) (k : String) : List (String × List YangRpc) :=
  if m.any (fun p => p.1 = k) then m else m ++ [(k, [])]

/-- `mods_rpc_map[k].append(rpc)` for every rpc of the module. -/
def mrmAppend (m : List (String × List YangRpc)) (k : String) (rs : List YangRpc) :
    List (String × List YangRpc) :=
  m.map (fun p => if p.1 = k then (p.1, p.2 ++ rs) else p)

/-- The accumulated state of `emit`'s module loop. -/
structure LoopState where
  fs : FS
  pfx : String
  server_mods : List String
  mod_name_map : List (String × String)
  rpcs_list : List YangRpc
  mods_rpc_map : List (String × List YangRpc)

/-- One iteration of `emit`'s `for module in modules` loop: skip submodules
and modules without rpc statements; flip the sticky artifact-name prefix when
the module name starts with `sonic`/`Sonic`; build and render the module;
change-aware write of the `.proto` file; regenerate the server stub only when
the `.proto` write happened. -/
def emitStep (env : Env) (gf : Nat) (ctx : Ctx) (st : LoopState) (m : Stmt) :
    Except Abort LoopState :=
  if m.keyword = "submodule" then .ok st
  else if (m.search "rpc").length < 1 then .ok st
  else
    let pfx' := if pyStartsWith m.arg "sonic" || pyStartsWith m.arg "Sonic" then "sonic" else st.pfx
    match buildProto env gf m with
    | .error e => .error e
    | .ok proto =>
      let mrm0 := mrmEnsure st.mods_rpc_map proto.module_name
      let rl := st.rpcs_list ++ proto.rpcs
      let mrm := mrmAppend mrm0 proto.module_name proto.rpcs
      let sm := st.server_mods ++ [proto.module_name]
      let mnm := mapSet st.mod_name_map proto.module_name proto.module_name_plain
      let fn := protoFnOf ctx proto.module_name_plain
      let content := print_proto gf proto
      let wr := write_file st.fs fn content
      let fs'' := if wr.1 then fsWrite wr.2 (stubFn ctx proto) (stub_content env proto) else wr.2
      .ok { fs := fs'', pfx := pfx', server_mods := sm, mod_name_map := mnm
            rpcs_list := rl, mods_rpc_map := mrm }

/-- The module loop; on `sys.exit` the state reached so far is returned with
the abort (files of earlier modules stay on disk, nothing of the aborting
module is written). -/
def emitLoop (env : Env) (gf : Nat) (ctx : Ctx) :
    List Stmt → LoopState → LoopState × Option Abort
  | [], st => (st, none)
  | m :: ms, st =>
    match emitStep env gf ctx st m with
    | .ok st' => emitLoop env gf ctx ms st'
    | .error e => (st, some e)

/-- The initial loop state: `prefix = "openconfig"`, empty accumulators. -/
def initState (fs : FS) : LoopState :=
  { fs := fs, pfx := "openconfig", server_mods := [], mod_name_map := []
    rpcs_list := [], mods_rpc_map := [] }

/-- `ProtobufPlugin.emit`: directory check, module loop, then the three
aggregate artifacts — `<prefix>_register.go`, `gnoiyang.go`, and the client
program `gnoi_<prefix>_client/main.go` — all written change-aware. -/
def emit (env : Env) (gf : Nat) (ctx : Ctx) (modules : List Stmt) (fs0 : FS) :
    LoopState × Option Abort :=
  if ctx.outdir = "" ∨ ctx.server_stub_outdir = "" ∨ ctx.client_outdir = "" then
    (initState fs0, some (.exit2 "missing output directory"))
  else
    match emitLoop env gf ctx modules (initState fs0) with
    | (st, some e) => (st, some e)
    | (st, none) =>
      let regFn := joinPath ctx.server_stub_outdir (st.pfx ++ "_register.go")
      let regC := env.renderRegister st.server_mods st.pfx st.mod_name_map
      let w1 := write_file st.fs regFn regC
      let w2 := write_file w1.2 (joinPath ctx.server_stub_outdir "gnoiyang.go") env.gnoiyangContent
      let clientFn := joinPath (joinPath ctx.client_outdir ("gnoi_" ++ st.pfx ++ "_client")) "main.go"
      let w3 := write_file w2.2 clientFn
        (env.renderClient st.rpcs_list st.pfx st.mods_rpc_map st.mod_name_map)
      ({ st with fs := w3.2 }, none)

/-! ### Specification-side definitions used to state the claims -/

/-- The integer column of the claimed fixed type-mapping table. -/
def claimedIntMap (yt : String) : String :=
  if yt = "int8" ∨ yt = "int16" ∨ yt = "int32" then "int32"
  else if yt = "int64" then "int64"
  else if yt = "uint8" ∨ yt = "uint16" ∨ yt = "uint32" then "uint32"
  else if yt = "uint64" then "uint64"
  else "sint64"

/-- The integer base types named by claim C7. -/
def intBaseTypes : List String :=
  ["int8", "int16", "int32", "int64", "uint8", "uint16", "uint32", "uint64", "decimal64"]

/-- `printLeafOne` with the emitted field tag made explicit (the text printed
for tag `t` is exactly the text `printLeafOne` prints for index `t - 1`). -/
def leafBlockAtTag (l : YangLeaf) (tag : Nat) (spaces : String) (include_message : Bool) : String :=
  let leafspaces := spaces ++ "    "
  let enumPart :=
    if l.type = "enum" then
      leafspaces ++ "enum " ++ pyCapitalize (pyReplaceChar l.name '-' '_') ++ "\n"
      ++ leafspaces ++ "\x7b\n"
      ++ printEnumeration l.enumeration leafspaces
      ++ leafspaces ++ "\x7d\n"
    else ""
  let ltype := if l.type = "enum" then pyCapitalize (pyReplaceChar l.name '-' '_') else l.type
  let msgOpen :=
    if include_message then
      spaces ++ "message " ++ pyReplaceChar l.name '-' '_' ++ " " ++ spaces ++ "\x7b\n"
    else ""
  let fieldLine :=
    leafspaces ++ (if l.leaf_list then "repeated " else "") ++ ltype ++ " "
    ++ pyReplaceChar l.name '-' '_' ++ " = " ++ toString tag
    ++ " [json_name = \"" ++ l.json_name ++ "\"];\n"
  let msgClose := if include_message then spaces ++ "\x7d\n" else ""
  enumPart ++ msgOpen ++ fieldLine ++ msgClose

/-- Rendering a leaf list with explicitly sequential tags starting at `tag`. -/
def fieldsNumberedFrom (spaces : String) (im : Bool) : List YangLeaf → Nat → String
  | [], _ => ""
  | l :: rest, tag => leafBlockAtTag l tag spaces im ++ fieldsNumberedFrom spaces im rest (tag + 1)

/-- First-occurrence deduplication, continuing an accumulator. -/
def dedupFirstFrom (acc : List String) : List String → List String
  | [] => acc
  | n :: rest => dedupFirstFrom (if n ∈ acc then acc else acc ++ [n]) rest

/-- First-occurrence deduplication of a list of names. -/
def dedupFirst (l : List String) : List String := dedupFirstFrom [] l

/-- Two leaves have no common enum member name. -/
def namesDisjoint (a b : YangLeaf) : Prop :=
  ∀ n, n ∈ a.enumeration_names → n ∉ b.enumeration_names

/-- Any two distinct leaves of a sibling list that both kept type `enum` have
disjoint member-name sets. -/
def keptEnumsDisjoint (ls : List YangLeaf) : Prop :=
  ls.Pairwise (fun a b => a.type = "enum" → b.type = "enum" → namesDisjoint a b ∧ namesDisjoint b a)

/-- A module the loop actually processes: not a submodule and with at least
one `rpc` statement. -/
def isActive (m : Stmt) : Bool :=
  (m.keyword ≠ "submodule") && !(m.search "rpc").isEmpty

/-- A module name that flips the sticky prefix. -/
def isSonicName (s : String) : Bool := pyStartsWith s "sonic" || pyStartsWith s "Sonic"

/-- Whether some processed module of the batch has a sonic name. -/
def activeAnySonic (mods : List Stmt) : Bool :=
  mods.any (fun m => isActive m && isSonicName m.arg)

/-- The plain (hyphen-to-underscore) module name. -/
def plainOf (m : Stmt) : String := pyReplaceChar m.arg '-' '_'

/-- The `.proto` paths of the modules the loop processes. -/
def activeProtoFns (ctx : Ctx) (mods : List Stmt) : List String :=
  (mods.filter (fun m => isActive m)).map (fun m => protoFnOf ctx (plainOf m))

/-! ### Concrete instances used by witnesses and counterexamples -/

/-- A concrete frontend/template environment for the witness runs. -/
def exEnv : Env :=
  { mkPath := fun s => "/exmod:" ++ s.arg
    searchTypedefMod := fun _ _ => none
    searchTypedefLocal := fun _ _ => none
    pfxToModule := fun _ _ => none
    leafrefTarget := fun _ => none
    renderRpcImports := fun a b => "// imports " ++ a ++ " " ++ b ++ "\n"
    renderRpcStub := fun n _ _ _ => "// stub " ++ n ++ "\n"
    renderRegister := fun _ p _ => "// register " ++ p ++ "\n"
    gnoiyangContent := "// gnoiyang\n"
    renderClient := fun _ p _ _ => "// client " ++ p ++ "\n" }

/-- `exEnv` with a pre-validated leafref target that is a container. -/
def exEnvL : Env := { exEnv with leafrefTarget := fun _ => some (.mk "container" "c" "exmod" "ex" []) }

def exTypeU16 : Stmt := .mk "type" "uint16" "exmod" "ex" []

def exLeafU16 : Stmt := .mk "leaf" "mtu" "exmod" "ex" [exTypeU16]

/-- A leaf whose declared type carries a prefix that maps to no imported module. -/
def exPrefixedLeaf : Stmt := .mk "leaf" "plleaf" "exmod" "ex" [.mk "type" "othermod:t1" "exmod" "ex" []]

/-- A leaf of type leafref (its pre-validated target comes from the environment). -/
def exLeafrefLeaf : Stmt := .mk "leaf" "badleaf" "exmod" "ex" [.mk "type" "leafref" "exmod" "ex" []]

/-- An enumeration type with an explicit member value and a duplicate member name. -/
def exEnumStmt : Stmt := .mk "type" "enumeration" "exmod" "ex"
  [.mk "enum" "A" "exmod" "ex" [.mk "value" "7" "exmod" "ex" []],
   .mk "enum" "B" "exmod" "ex" [], .mk "enum" "A" "exmod" "ex" []]

def exEnumLeaf1 : Stmt := .mk "leaf" "l1" "exmod" "ex"
  [.mk "type" "enumeration" "exmod" "ex" [.mk "enum" "A" "exmod" "ex" [], .mk "enum" "B" "exmod" "ex" []]]

def exEnumLeaf2 : Stmt := .mk "leaf" "l2" "exmod" "ex"
  [.mk "type" "enumeration" "exmod" "ex" [.mk "enum" "B" "exmod" "ex" [], .mk "enum" "C" "exmod" "ex" []]]

def exLeafA : YangLeaf :=
  { name := "alpha", type := "string", json_name := "exmod:alpha", leaf_list := false
    enumeration := [], enumeration_names := [] }

def exLeafB : YangLeaf :=
  { name := "beta", type := "string", json_name := "exmod:beta", leaf_list := false
    enumeration := [], enumeration_names := [] }

def exRpcEmpty : Stmt := .mk "rpc" "do-thing" "exmod" "ex" []

def exRpcWithInput : Stmt := .mk "rpc" "reboot" "exmod" "ex"
  [.mk "input" "input" "exmod" "ex" [.mk "leaf" "delay" "exmod" "ex" [.mk "type" "uint64" "exmod" "ex" []]]]

def exModule : Stmt := .mk "module" "sonic-ex" "exmod" "ex" [exRpcEmpty]

/-- A module whose rpc input contains the bad leafref leaf. -/
def exModuleBad : Stmt := .mk "module" "bad-mod" "exmod" "ex"
  [.mk "rpc" "r1" "exmod" "ex" [.mk "input" "input" "exmod" "ex" [exLeafrefLeaf]]]

def exFS : FS := ⟨fun _ => none, []⟩

def exCtx : Ctx := ⟨"protos", "server", "client"⟩

/-- The filesystem effect of one active `emit` iteration: the change-aware
`.proto` write, then the unconditional server-stub write gated on the diff. -/
def stepWrite (env : Env) (gf : Nat) (ctx : Ctx) (fs : FS) (proto : Protobuf) : FS :=
  let wr := write_file fs (protoFnOf ctx proto.module_name_plain) (print_proto gf proto)
  if wr.1 then fsWrite wr.2 (stubFn ctx proto) (stub_content env proto) else wr.2

/-- The loop state after one active `emit` iteration with compiled `proto`. -/
def stepState (env : Env) (gf : Nat) (ctx : Ctx) (st : LoopState) (m : Stmt)
    (proto : Protobuf) : LoopState :=
  { fs := stepWrite env gf ctx st.fs proto
    pfx := if isSonicName m.arg then "sonic" else st.pfx
    server_mods := st.server_mods ++ [proto.module_name]
    mod_name_map := mapSet st.mod_name_map proto.module_name proto.module_name_plain
    rpcs_list := st.rpcs_list ++ proto.rpcs
    mods_rpc_map := mrmAppend (mrmEnsure st.mods_rpc_map proto.module_name)
      proto.module_name proto.rpcs }

/-- The compiled module after processing `exRpcWithInput` (checked by `rfl`
in the C9 witness). -/
def exRpcResult : Protobuf :=
  { module_name := "MyMod", module_name_plain := "my_mod"
    containers :=
      [.mk "RebootRequest"
         [.mk "Input" [] [] [⟨"delay", "uint64", "exmod:delay", false, [], []⟩]] []
         [⟨"input", "Input", "exmod:input", false, [], []⟩],
       .mk "RebootResponse" [] [] []]
    ylist := [], leafs := []
    rpcs := [{ mod_name := "MyMod", name := "MyModReboot", name_without_parent := "Reboot"
               input := "RebootRequest", output := "RebootResponse"
               rpc_url := "/exmod:reboot", input_empty := false, output_empty := true }]
    headers := [], has_empty := true, has_value_type := false }

/-! ## Theorems -/

/-! ### Field numbering (claim C4) -/

theorem printLeafOne_eq_block (l : YangLeaf) (idx : Nat) (spaces : String) (im : Bool) :
    printLeafOne l idx spaces im = leafBlockAtTag l (idx + 1) spaces im := rfl

theorem printLeafAux_numbered (spaces : String) (im : Bool) :
    ∀ (leafs : List YangLeaf) (idx : Nat),
      printLeafAux spaces im leafs idx = fieldsNumberedFrom spaces im leafs (idx + 1)
  | [], _ => rfl
  | l :: rest, idx => by
      simp only [printLeafAux, fieldsNumberedFrom, printLeafOne_eq_block,
        printLeafAux_numbered spaces im rest (idx + 1)]

/-- C4 (amended): `_print_leaf` emits the field tags `1..N` sequentially in
append order over the whole leaf list it is given.  Inside a message printed
by `_print_container`/`_print_list` (`include_message = false`) these are the
message's fields, so any such message with `N` fields carries tags exactly
`1..N`.  For the per-top-level-leaf wrapper messages
(`include_message = true`) the same single sequence runs *across* wrappers,
so the i-th wrapper's single field is tagged `i` — not `1` as the original
claim states. -/
theorem c4_field_tags_sequential (leafs : List YangLeaf) (spaces : String) (im : Bool) :
    print_leaf leafs spaces im = fieldsNumberedFrom spaces im leafs 1 :=
  printLeafAux_numbered spaces im leafs 0

/-- C4 counterexample: with two top-level leaf wrappers, the rendered text is
the one whose second wrapper field is tagged `2`, and differs from the text
the claim predicts (both wrapper fields tagged `1`). -/
theorem c4_wrapper_tag_counterexample :
    print_leaf [exLeafA, exLeafB] "" true
        = leafBlockAtTag exLeafA 1 "" true ++ leafBlockAtTag exLeafB 2 "" true
    ∧ print_leaf [exLeafA, exLeafB] "" true
        ≠ leafBlockAtTag exLeafA 1 "" true ++ leafBlockAtTag exLeafB 1 "" true := by
  constructor
  · decide
  · decide

/-! ### Type resolution (claims C5, C6, C7) -/

/-- C5: a leaf whose declared type has a prefix that maps to no imported
module makes `get_type` take the bare `return` (Python `None`); the caller
`get_protobuf_type` then crashes unpacking the `None` (an uncaught
`TypeError`, terminating the process with a traceback and exit code 1), so
the run never reaches a `sys.exit(2)`. -/
theorem c5_unmappable_prefix_crash :
    get_type exEnv 5 exPrefixedLeaf = .pyNone
    ∧ get_protobuf_type exEnv 5 exPrefixedLeaf = .abort .crash := ⟨rfl, rfl⟩

/-- C6 counterexample: the abort diagnostic for a leafref pointing at a
container is the fixed string `"leafref not pointing to leaf/leaflist"`,
which does not contain the offending leaf's name. -/
theorem c6_diagnostic_counterexample :
    get_type exEnvL 5 exLeafrefLeaf = .abort (.exit2 "leafref not pointing to leaf/leaflist")
    ∧ strContains "leafref not pointing to leaf/leaflist" exLeafrefLeaf.arg = false := by
  exact ⟨rfl, by decide⟩

/-- C7: a leaf whose type resolves (after typedef/leafref chasing) to an
integer base type maps per the fixed table — `int8/int16/int32 ↦ int32`,
`int64 ↦ int64`, `uint8/uint16/uint32 ↦ uint32`, `uint64 ↦ uint64`,
`decimal64 ↦ sint64` — and never to `string`. -/
theorem c7_integer_mapping (env : Env) (fuel : Nat) (node : Stmt) (yt : String) (stmt : Stmt)
    (h : get_type env fuel node = .ok yt stmt) (hy : yt ∈ intBaseTypes) :
    get_protobuf_type env fuel node = .ok (claimedIntMap yt) stmt
    ∧ claimedIntMap yt ≠ "string" := by
  unfold get_protobuf_type
  rw [h]
  fin_cases hy <;> exact ⟨rfl, by decide⟩

/-- Witness for C7 at a concrete `uint16` leaf. -/
theorem c7_integer_mapping_witness :
    get_protobuf_type exEnv 3 exLeafU16 = .ok (claimedIntMap "uint16") exTypeU16
    ∧ claimedIntMap "uint16" ≠ "string" :=
  c7_integer_mapping exEnv 3 exLeafU16 "uint16" exTypeU16 rfl (by decide)

/-! ### Enumeration member list (claim C8) -/

theorem any_key_eq_mem (d : List (String × Option Int)) (k : String) :
    d.any (fun p => p.1 = k) = decide (k ∈ d.map (fun p => p.1)) := by
  induction d with
  | nil => rfl
  | cons p rest ih =>
    by_cases hp : p.1 = k
    · simp [List.any_cons, hp]
    · simp [List.any_cons, hp, ih, Ne.symm hp]

theorem keys_dictInsert (d : List (String × Option Int)) (k : String) (v : Option Int) :
    (dictInsert d k v).map (fun p => p.1)
      = if k ∈ d.map (fun p => p.1) then d.map (fun p => p.1)
        else d.map (fun p => p.1) ++ [k] := by
  unfold dictInsert
  rw [any_key_eq_mem]
  by_cases hk : k ∈ d.map (fun p => p.1)
  · simp only [hk, decide_True, if_true, List.map_map]
    apply List.map_congr_left
    intro p _
    by_cases hp : p.1 = k <;> simp [Function.comp, hp]
  · simp [hk]

theorem peLoop_keys (sibs : List YangLeaf) :
    ∀ (enums : List Stmt) (d d' : List (String × Option Int)),
      peLoop sibs enums d = some d' →
      d'.map (fun p => p.1) = dedupFirstFrom (d.map (fun p => p.1)) (enums.map Stmt.arg) := by
  intro enums
  induction enums with
  | nil =>
    intro d d' h
    simp only [peLoop, Option.some.injEq] at h
    subst h; rfl
  | cons e rest ih =>
    intro d d' h
    unfold peLoop at h
    split at h
    · exact absurd h (by simp)
    · split at h
      · exact absurd h (by simp)
      · have hrec := ih (dictInsert d e.arg
          (match e.searchOne "value" with
           | some val => some (pyIntOfString val.arg)
           | none => none)) d' h
        rw [hrec, keys_dictInsert]
        simp only [List.map_cons, dedupFirstFrom]

/-- C8: for every accepted enumeration the compiled member list is the
declaration-order, first-occurrence-deduplicated sequence of member names,
tagged `0..N-1` in that order; the result is a function of the member names
alone, so any explicit `value` substatements are ignored. -/
theorem c8_enum_members (node : Stmt) (sibs : List YangLeaf) (e ns : List String)
    (h : process_enumeration node sibs = some (e, ns)) :
    ns = dedupFirst ((node.search "enum").map Stmt.arg)
    ∧ e = declTags (dedupFirst ((node.search "enum").map Stmt.arg)) 0 := by
  unfold process_enumeration at h
  cases hp : peLoop sibs (node.search "enum") [] with
  | none => rw [hp] at h; exact absurd h (by simp)
  | some d =>
    rw [hp] at h
    simp only [Option.some.injEq, Prod.mk.injEq] at h
    obtain ⟨h1, h2⟩ := h
    have hk := peLoop_keys sibs (node.search "enum") [] d hp
    simp only [List.map_nil] at hk
    rw [← h1, ← h2, hk]
    exact ⟨rfl, rfl⟩

/-- Witness for C8 on a concrete enumeration with an explicit member value `7`
and a duplicated member name: the compiled members are `A = 0 ;`, `B = 1 ;`. -/
theorem c8_enum_members_witness :
    (["A", "B"] : List String) = dedupFirst ((exEnumStmt.search "enum").map Stmt.arg)
    ∧ (["A = 0 ;", "B = 1 ;"] : List String)
        = declTags (dedupFirst ((exEnumStmt.search "enum").map Stmt.arg)) 0 :=
  c8_enum_members exEnumStmt [] ["A = 0 ;", "B = 1 ;"] ["A", "B"] rfl

/-! ### Sibling enum deduplication (claim C2) -/

theorem peLoop_member_safe (sibs : List YangLeaf) :
    ∀ (enums : List Stmt) (d d' : List (String × Option Int)),
      peLoop sibs enums d = some d' →
      ∀ k, k ∈ d'.map (fun p => p.1) →
        k ∈ d.map (fun p => p.1)
        ∨ ∀ s ∈ sibs, s.type = "enum" → k ∉ s.enumeration_names := by
  intro enums
  induction enums with
  | nil =>
    intro d d' h k hk
    simp only [peLoop, Option.some.injEq] at h
    subst h
    exact Or.inl hk
  | cons e rest ih =>
    intro d d' h k hk
    unfold peLoop at h
    split at h
    · exact absurd h (by simp)
    split at h
    · exact absurd h (by simp)
    rename_i hsib
    rcases ih _ d' h k hk with hmem | hsafe
    · rw [keys_dictInsert] at hmem
      split at hmem
      · exact Or.inl hmem
      · rcases List.mem_append.mp hmem with h1 | h2
        · exact Or.inl h1
        · have hke : k = e.arg := by simpa using h2
          refine Or.inr ?_
          intro s hs hst hmem2
          apply hsib
          refine List.any_eq_true.mpr ⟨s, hs, ?_⟩
          have hm2 : e.arg ∈ s.enumeration_names := hke ▸ hmem2
          simp only [hst, decide_True, Bool.true_and]
          exact List.elem_eq_true_of_mem hm2
    · exact Or.inr hsafe

theorem process_enumeration_safe (node : Stmt) (sibs : List YangLeaf) (e ns : List String)
    (h : process_enumeration node sibs = some (e, ns)) :
    ∀ k ∈ ns, ∀ s ∈ sibs, s.type = "enum" → k ∉ s.enumeration_names := by
  unfold process_enumeration at h
  cases hp : peLoop sibs (node.search "enum") [] with
  | none => rw [hp] at h; exact absurd h (by simp)
  | some d =>
    rw [hp] at h
    simp only [Option.some.injEq, Prod.mk.injEq] at h
    obtain ⟨_, h2⟩ := h
    intro k hk
    rcases peLoop_member_safe sibs (node.search "enum") [] d hp k (h2 ▸ hk) with hmem | hsafe
    · simp at hmem
    · exact hsafe

theorem process_leaf_disjoint (env : Env) (gf : Nat) (node : Stmt) (sibs : List YangLeaf)
    (ll : Bool) (nm : String) (leaf : YangLeaf) (lv : Bool)
    (h : process_leaf env gf node sibs ll nm = .ok (leaf, lv)) :
    leaf.type = "enum" →
    ∀ s ∈ sibs, s.type = "enum" → namesDisjoint leaf s ∧ namesDisjoint s leaf := by
  unfold process_leaf at h
  split at h
  · exact absurd h (by simp)
  · exact absurd h (by simp)
  rename_i p_type stmt heq
  dsimp only at h
  split at h
  · rename_i hpt
    split at h
    · rename_i e ns hpe
      simp only [Except.ok.injEq, Prod.mk.injEq] at h
      obtain ⟨hleaf, _⟩ := h
      intro _ s hs hst
      have hsafe := process_enumeration_safe stmt sibs e ns hpe
      constructor
      · intro n hn
        rw [← hleaf] at hn
        exact hsafe n hn s hs hst
      · intro n hn hmem
        rw [← hleaf] at hmem
        exact hsafe n hmem s hs hst hn
    · simp only [Except.ok.injEq, Prod.mk.injEq] at h
      obtain ⟨hleaf, _⟩ := h
      intro habs
      rw [← hleaf] at habs
      simp at habs
  · rename_i hpt
    simp only [Except.ok.injEq, Prod.mk.injEq] at h
    obtain ⟨hleaf, _⟩ := h
    intro habs
    rw [← hleaf] at habs
    exact absurd habs hpt

theorem kept_append_empty (ls : List YangLeaf) (l : YangLeaf)
    (hl : l.enumeration_names = []) (h : keptEnumsDisjoint ls) :
    keptEnumsDisjoint (ls ++ [l]) := by
  unfold keptEnumsDisjoint at *
  rw [List.pairwise_append]
  refine ⟨h, List.pairwise_singleton _ _, ?_⟩
  intro a _ b hb _ _
  have hb' : b = l := by simpa using hb
  subst hb'
  constructor
  · intro n _ hmem
    rw [hl] at hmem
    exact absurd hmem (List.not_mem_nil n)
  · intro n hn
    rw [hl] at hn
    exact absurd hn (List.not_mem_nil n)

theorem kept_append_leaf (sibs : List YangLeaf) (l : YangLeaf)
    (h : keptEnumsDisjoint sibs)
    (hsafe : l.type = "enum" →
      ∀ s ∈ sibs, s.type = "enum" → namesDisjoint l s ∧ namesDisjoint s l) :
    keptEnumsDisjoint (sibs ++ [l]) := by
  unfold keptEnumsDisjoint at *
  rw [List.pairwise_append]
  refine ⟨h, List.pairwise_singleton _ _, ?_⟩
  intro a ha b hb hat hbt
  have hb' : b = l := by simpa using hb
  subst hb'
  have := hsafe hbt a ha hat
  exact ⟨this.2, this.1⟩

/-- C2 (amended): the collision scan only sees siblings already compiled, so
of two sibling leafs declaring enumerations that share a member name the
*later-processed* one falls back to string while the earlier keeps its enum;
consequently any two leafs under the same parent that both keep type `enum`
have disjoint member-name sets, and no emitted enum contains a member name
also present in another emitted (kept) enum under the same parent. -/
theorem c2_kept_enums_disjoint (env : Env) (gf : Nat) :
    ∀ (fuel : Nat) (stmts : List Stmt) (parent : YangNode) (hv : Bool)
      (res : YangNode × Bool),
      processStmts env gf fuel stmts parent hv = .ok res →
      keptEnumsDisjoint parent.leafs → keptEnumsDisjoint res.1.leafs := by
  intro fuel
  induction fuel with
  | zero =>
    intro stmts parent hv res h
    exact absurd h (by simp [processStmts])
  | succ fuel ih =>
    intro stmts parent hv res h hdisj
    match stmts with
    | [] =>
      simp only [processStmts, Except.ok.injEq] at h
      subst h
      exact hdisj
    | ch :: rest =>
      rw [processStmts] at h
      split at h
      · exact absurd h (by simp)
      split at h
      · exact ih rest parent hv res h hdisj
      split at h
      · split at h
        · rename_i p1 hv1 hm
          exact ih rest p1 hv1 res h (ih ch.substmts parent hv (p1, hv1) hm hdisj)
        · exact absurd h (by simp)
      split at h
      · split at h
        · rename_i c1 hv1 hm
          exact ih rest _ hv1 res h (kept_append_empty parent.leafs _ rfl hdisj)
        · exact absurd h (by simp)
      split at h
      · split at h
        · rename_i l1 hv1 hm
          exact ih rest _ hv1 res h (kept_append_empty parent.leafs _ rfl hdisj)
        · exact absurd h (by simp)
      split at h
      · dsimp only at h
        split at h
        · rename_i lf1 lv1 hm
          exact ih rest _ _ res h
            (kept_append_leaf parent.leafs lf1 hdisj
              (process_leaf_disjoint env gf ch parent.leafs _ _ lf1 lv1 hm))
        · exact absurd h (by simp)
      · exact ih rest parent hv res h hdisj

/-- C2 counterexample: two sibling leafs declaring enumerations sharing the
member name `B`; after compilation the first keeps type `enum` and only the
second is downgraded to `string`, contradicting the claim that both fall
back. -/
theorem c2_both_fallback_counterexample :
    (match processStmts exEnv 5 8 [exEnumLeaf1, exEnumLeaf2] (mkNode "X") false with
     | .ok (n, _) => n.leafs.map (fun l => l.type)
     | .error _ => []) = ["enum", "string"]
    ∧ (match processStmts exEnv 5 8 [exEnumLeaf1, exEnumLeaf2] (mkNode "X") false with
       | .ok (n, _) => n.leafs.map (fun l => l.type)
       | .error _ => []) ≠ ["string", "string"] := by
  exact ⟨rfl, by decide⟩

/-- Witness for the amended C2 on the concrete colliding siblings. -/
theorem c2_kept_enums_disjoint_witness :
    keptEnumsDisjoint
      [⟨"l1", "enum", "exmod:l1", false, ["A = 0 ;", "B = 1 ;"], ["A", "B"]⟩,
       ⟨"l2", "string", "exmod:l2", false, [], []⟩] :=
  c2_kept_enums_disjoint exEnv 5 8 [exEnumLeaf1, exEnumLeaf2] (mkNode "X") false
    (⟨.mk "X" [] []
      [⟨"l1", "enum", "exmod:l1", false, ["A = 0 ;", "B = 1 ;"], ["A", "B"]⟩,
       ⟨"l2", "string", "exmod:l2", false, [], []⟩], false⟩)
    rfl List.Pairwise.nil

/-! ### RPC wrappers (claims C3 and C9) -/

theorem searchOne_not_empty (node : Stmt) (kw : String) (i : Stmt)
    (hi : node.searchOne kw = some i) (hne : ¬ i.substmts.isEmpty = true) :
    ¬(node.searchOne kw = none ∨ ∃ j, node.searchOne kw = some j ∧ j.substmts = []) := by
  rintro (hnone | ⟨j, hj, hsub⟩)
  · rw [hi] at hnone
    exact Option.noConfusion hnone
  · rw [hi] at hj
    cases Option.some.inj hj
    exact hne (by simp [List.isEmpty_iff, hsub])

/-- C3: an RPC whose `input` substatement is absent or childless gets a
request wrapper with zero leaf fields (no `"input"` field is added — the
wrapper is the freshly constructed empty container) and its `input_empty`
flag set. -/
theorem c3_empty_input_request (env : Env) (gf : Nat) (node : Stmt) (parent parent' : Protobuf)
    (h : process_rpc env gf node parent = .ok parent')
    (hin : node.searchOne "input" = none
         ∨ ∃ i, node.searchOne "input" = some i ∧ i.substmts = []) :
    ∃ co r, parent'.containers
        = parent.containers ++ [mkNode (snake_to_camel (node.arg ++ "_request")), co]
      ∧ (mkNode (snake_to_camel (node.arg ++ "_request"))).leafs = []
      ∧ parent'.rpcs = parent.rpcs ++ [r]
      ∧ r.input_empty = true := by
  unfold process_rpc at h
  dsimp only at h
  rcases hin with hi | ⟨i, hi, hsub⟩
  · rw [hi] at h
    dsimp only at h
    split at h
    · exact absurd h (by simp)
    · simp only [Except.ok.injEq] at h
      subst h
      exact ⟨_, _, rfl, rfl, rfl, rfl⟩
  · rw [hi] at h
    simp only [hsub, List.isEmpty_nil, if_true] at h
    split at h
    · exact absurd h (by simp)
    · simp only [Except.ok.injEq] at h
      subst h
      exact ⟨_, _, rfl, rfl, rfl, rfl⟩

/-- Witness for C3: a concrete RPC with no `input` substatement. -/
theorem c3_empty_input_request_witness :
    ∃ co r, (Protobuf.init "my-mod").containers
        ++ [mkNode (snake_to_camel (exRpcEmpty.arg ++ "_request")), mkNode (snake_to_camel (exRpcEmpty.arg ++ "_response"))]
        = (Protobuf.init "my-mod").containers
          ++ [mkNode (snake_to_camel (exRpcEmpty.arg ++ "_request")), co]
      ∧ (mkNode (snake_to_camel (exRpcEmpty.arg ++ "_request"))).leafs = []
      ∧ (Protobuf.init "my-mod").rpcs ++
          [{ mod_name := (Protobuf.init "my-mod").module_name
             name := snake_to_camel ((Protobuf.init "my-mod").module_name_plain ++ "_" ++ exRpcEmpty.arg)
             name_without_parent := snake_to_camel exRpcEmpty.arg
             input := snake_to_camel (exRpcEmpty.arg ++ "_request")
             output := snake_to_camel (exRpcEmpty.arg ++ "_response")
             rpc_url := exEnv.mkPath exRpcEmpty
             input_empty := true, output_empty := true }]
        = (Protobuf.init "my-mod").rpcs ++ [r]
      ∧ r.input_empty = true := by
  have h := c3_empty_input_request exEnv 3 exRpcEmpty (Protobuf.init "my-mod")
    { Protobuf.init "my-mod" with
        containers := (Protobuf.init "my-mod").containers
          ++ [mkNode (snake_to_camel (exRpcEmpty.arg ++ "_request")),
              mkNode (snake_to_camel (exRpcEmpty.arg ++ "_response"))]
        rpcs := (Protobuf.init "my-mod").rpcs ++
          [{ mod_name := (Protobuf.init "my-mod").module_name
             name := snake_to_camel ((Protobuf.init "my-mod").module_name_plain ++ "_" ++ exRpcEmpty.arg)
             name_without_parent := snake_to_camel exRpcEmpty.arg
             input := snake_to_camel (exRpcEmpty.arg ++ "_request")
             output := snake_to_camel (exRpcEmpty.arg ++ "_response")
             rpc_url := exEnv.mkPath exRpcEmpty
             input_empty := true, output_empty := true }]
        has_empty := true }
    rfl (Or.inl rfl)
  exact h

/-- C9: every processed RPC statement appends exactly one request wrapper and
one response wrapper container to the module, in this order, and exactly one
method record whose `input`/`output` name those wrappers; an absent or
childless input/output substatement is recorded by the corresponding empty
flag rather than by omitting the wrapper. -/
theorem c9_rpc_wrappers (env : Env) (gf : Nat) (node : Stmt) (parent parent' : Protobuf)
    (h : process_rpc env gf node parent = .ok parent') :
    ∃ ci co r,
      parent'.containers = parent.containers ++ [ci, co]
      ∧ parent'.rpcs = parent.rpcs ++ [r]
      ∧ ci.name = snake_to_camel (node.arg ++ "_request")
      ∧ co.name = snake_to_camel (node.arg ++ "_response")
      ∧ r.input = ci.name ∧ r.output = co.name
      ∧ (r.input_empty = true ↔ (node.searchOne "input" = none
           ∨ ∃ i, node.searchOne "input" = some i ∧ i.substmts = []))
      ∧ (r.output_empty = true ↔ (node.searchOne "output" = none
           ∨ ∃ o, node.searchOne "output" = some o ∧ o.substmts = [])) := by
  unfold process_rpc at h
  dsimp only at h
  split at h
  · exact absurd h (by simp)
  rename_i c_input in_empty he1 hv1 heq1
  split at h
  · exact absurd h (by simp)
  rename_i c_output out_empty he2 hv2 heq2
  simp only [Except.ok.injEq] at h
  subst h
  -- input-side facts
  have hinfact : c_input.name = snake_to_camel (node.arg ++ "_request")
      ∧ (in_empty = true ↔ (node.searchOne "input" = none
           ∨ ∃ i, node.searchOne "input" = some i ∧ i.substmts = [])) := by
    split at heq1
    · rename_i i hi
      split at heq1
      · rename_i hemp
        simp only [Except.ok.injEq, Prod.mk.injEq] at heq1
        obtain ⟨hc, hie, -, -⟩ := heq1
        subst hc; subst hie
        exact ⟨rfl, iff_of_true rfl (Or.inr ⟨i, hi, List.isEmpty_iff.mp hemp⟩)⟩
      · rename_i hemp
        split at heq1
        · rename_i ic hv' hps
          simp only [Except.ok.injEq, Prod.mk.injEq] at heq1
          obtain ⟨hc, hie, -, -⟩ := heq1
          subst hc; subst hie
          exact ⟨rfl, iff_of_false (by simp) (searchOne_not_empty node "input" i hi hemp)⟩
        · exact absurd heq1 (by simp)
    · rename_i hi
      simp only [Except.ok.injEq, Prod.mk.injEq] at heq1
      obtain ⟨hc, hie, -, -⟩ := heq1
      subst hc; subst hie
      exact ⟨rfl, iff_of_true rfl (Or.inl hi)⟩
  -- output-side facts
  have houtfact : c_output.name = snake_to_camel (node.arg ++ "_response")
      ∧ (out_empty = true ↔ (node.searchOne "output" = none
           ∨ ∃ o, node.searchOne "output" = some o ∧ o.substmts = [])) := by
    split at heq2
    · rename_i o ho
      split at heq2
      · rename_i hemp
        simp only [Except.ok.injEq, Prod.mk.injEq] at heq2
        obtain ⟨hc, hoe, -, -⟩ := heq2
        subst hc; subst hoe
        exact ⟨rfl, iff_of_true rfl (Or.inr ⟨o, ho, List.isEmpty_iff.mp hemp⟩)⟩
      · rename_i hemp
        split at heq2
        · rename_i oc hv'' hps
          simp only [Except.ok.injEq, Prod.mk.injEq] at heq2
          obtain ⟨hc, hoe, -, -⟩ := heq2
          subst hc; subst hoe
          exact ⟨rfl, iff_of_false (by simp) (searchOne_not_empty node "output" o ho hemp)⟩
        · exact absurd heq2 (by simp)
    · rename_i ho
      simp only [Except.ok.injEq, Prod.mk.injEq] at heq2
      obtain ⟨hc, hoe, -, -⟩ := heq2
      subst hc; subst hoe
      exact ⟨rfl, iff_of_true rfl (Or.inl ho)⟩
  exact ⟨c_input, c_output, _, rfl, rfl, hinfact.1, houtfact.1, hinfact.1.symm,
    houtfact.1.symm, hinfact.2, houtfact.2⟩

/-- Witness for C9 on a concrete RPC with a nonempty input and no output. -/
theorem c9_rpc_wrappers_witness :
    ∃ ci co r,
      exRpcResult.containers = (Protobuf.init "my-mod").containers ++ [ci, co]
      ∧ exRpcResult.rpcs = (Protobuf.init "my-mod").rpcs ++ [r]
      ∧ ci.name = snake_to_camel (exRpcWithInput.arg ++ "_request")
      ∧ co.name = snake_to_camel (exRpcWithInput.arg ++ "_response")
      ∧ r.input = ci.name ∧ r.output = co.name
      ∧ (r.input_empty = true ↔ (exRpcWithInput.searchOne "input" = none
           ∨ ∃ i, exRpcWithInput.searchOne "input" = some i ∧ i.substmts = []))
      ∧ (r.output_empty = true ↔ (exRpcWithInput.searchOne "output" = none
           ∨ ∃ o, exRpcWithInput.searchOne "output" = some o ∧ o.substmts = [])) :=
  c9_rpc_wrappers exEnv 4 exRpcWithInput (Protobuf.init "my-mod") exRpcResult rfl

/-! ### Leafref abort (claim C6, amended theorem) -/

/-- C6 (amended): a leaf whose reference type points at a node that is not a
leaf or leaf-list makes the compiler abort the whole run with `sys.exit(2)`
and the *fixed* diagnostic `"leafref not pointing to leaf/leaflist"` (the
message does not name the offending node — see the counterexample); a module
whose processing hits such an abort stops the emit loop in the state it had
before that module, so no output file of that module is written. -/
theorem c6_leafref_nonleaf_aborts (env : Env) (leaf t tgt : Stmt)
    (hk : ¬ leaf.keyword = "type") (ht : leaf.searchOne "type" = some t)
    (ha : t.arg = "leafref") (htgt : env.leafrefTarget leaf = some tgt)
    (h1 : ¬ tgt.keyword = "leaf") (h2 : ¬ tgt.keyword = "leaf-list") :
    (∀ fuel : Nat,
      get_type env (fuel + 2) leaf = .abort (.exit2 "leafref not pointing to leaf/leaflist"))
    ∧ (∀ (gf : Nat) (ctx : Ctx) (st : LoopState) (m : Stmt) (ms : List Stmt) (e : Abort),
        ¬ m.keyword = "submodule" → ¬ (m.search "rpc").length < 1 →
        buildProto env gf m = .error e →
        emitLoop env gf ctx (m :: ms) st = (st, some e)) := by
  constructor
  · intro fuel
    unfold get_type
    show get_type_go env (fuel + 1 + 1) (Sum.inl leaf) = _
    rw [get_type_go.eq_def]
    simp only [if_neg hk, ht]
    rw [get_type_go.eq_def]
    simp only [ha, base_types, htgt, h1, h2]
    exact rfl
  · intro gf ctx st m ms e hsm hrp hb
    unfold emitLoop emitStep
    rw [if_neg hsm, if_neg hrp, hb]

/-- Witness for the amended C6: the concrete leafref-at-container leaf aborts
`get_type` with the fixed diagnostic, and the module containing it stops the
emit loop with no state change. -/
theorem c6_leafref_nonleaf_aborts_witness :
    get_type exEnvL 5 exLeafrefLeaf = .abort (.exit2 "leafref not pointing to leaf/leaflist")
    ∧ emitLoop exEnvL 8 exCtx [exModuleBad] (initState exFS)
        = (initState exFS, some (.exit2 "leafref not pointing to leaf/leaflist")) := by
  have h := c6_leafref_nonleaf_aborts exEnvL exLeafrefLeaf
    (.mk "type" "leafref" "exmod" "ex" []) (.mk "container" "c" "exmod" "ex" [])
    (by decide) rfl rfl rfl (by decide) (by decide)
  exact ⟨h.1 3, h.2 8 exCtx (initState exFS) exModuleBad []
    (.exit2 "leafref not pointing to leaf/leaflist") (by decide) (by decide) rfl⟩

/-! ### Path-disjointness and writer lemmas (for claims C1 and C10) -/

theorem append_ne_of_rev_get (a b : String) (i : Nat) (c1 c2 : Char)
    (ha : a.data.reverse[i]? = some c1) (hb : b.data.reverse[i]? = some c2)
    (hne : c1 ≠ c2) : ∀ x y : String, ¬ x ++ a = y ++ b := by
  intro x y h
  have hd : x.data ++ a.data = y.data ++ b.data := by
    have := congrArg String.data h
    simpa [String.data_append] using this
  have hr : a.data.reverse ++ x.data.reverse = b.data.reverse ++ y.data.reverse := by
    have := congrArg List.reverse hd
    simpa [List.reverse_append] using this
  have hla : i < a.data.reverse.length := (List.getElem?_eq_some.mp ha).1
  have hlb : i < b.data.reverse.length := (List.getElem?_eq_some.mp hb).1
  have h1 : (a.data.reverse ++ x.data.reverse)[i]? = some c1 := by
    rw [List.getElem?_append_left hla]; exact ha
  have h2 : (b.data.reverse ++ y.data.reverse)[i]? = some c2 := by
    rw [List.getElem?_append_left hlb]; exact hb
  rw [hr] at h1
  rw [h1] at h2
  exact hne (Option.some.inj h2)

theorem proto_ne_go (x y : String) : ¬ x ++ ".proto" = y ++ ".go" :=
  append_ne_of_rev_get ".proto" ".go" 1 't' 'g' rfl rfl (by decide) x y

theorem proto_ne_register (x y : String) : ¬ x ++ ".proto" = y ++ "_register.go" :=
  append_ne_of_rev_get ".proto" "_register.go" 1 't' 'g' rfl rfl (by decide) x y

theorem proto_ne_gnoiyang (x y : String) : ¬ x ++ ".proto" = y ++ "gnoiyang.go" :=
  append_ne_of_rev_get ".proto" "gnoiyang.go" 1 't' 'g' rfl rfl (by decide) x y

theorem proto_ne_main (x y : String) : ¬ x ++ ".proto" = y ++ "main.go" :=
  append_ne_of_rev_get ".proto" "main.go" 1 't' 'g' rfl rfl (by decide) x y

theorem register_ne_gnoiyang (x y : String) : ¬ x ++ "_register.go" = y ++ "gnoiyang.go" :=
  append_ne_of_rev_get "_register.go" "gnoiyang.go" 3 'r' 'g' rfl rfl (by decide) x y

theorem register_ne_main (x y : String) : ¬ x ++ "_register.go" = y ++ "main.go" :=
  append_ne_of_rev_get "_register.go" "main.go" 3 'r' 'n' rfl rfl (by decide) x y

theorem gnoiyang_ne_main (x y : String) : ¬ x ++ "gnoiyang.go" = y ++ "main.go" :=
  append_ne_of_rev_get "gnoiyang.go" "main.go" 3 'g' 'n' rfl rfl (by decide) x y

theorem protoFn_form (ctx : Ctx) (p : String) :
    protoFnOf ctx p = (ctx.outdir ++ "/" ++ p ++ "/" ++ p) ++ ".proto" := by
  simp only [protoFnOf, joinPath, String.append_assoc]

theorem stubFn_form (ctx : Ctx) (proto : Protobuf) :
    stubFn ctx proto
      = (ctx.server_stub_outdir ++ "/" ++ proto.module_name_plain ++ "/"
          ++ proto.module_name_plain) ++ ".go" := by
  simp only [stubFn, joinPath, String.append_assoc]

theorem regFn_form (sd pfx : String) :
    joinPath sd (pfx ++ "_register.go") = (sd ++ "/" ++ pfx) ++ "_register.go" := by
  simp only [joinPath, String.append_assoc]

theorem gnoiFn_form (sd : String) :
    joinPath sd "gnoiyang.go" = (sd ++ "/") ++ "gnoiyang.go" := rfl

theorem clientFn_form (cd g : String) :
    joinPath (joinPath cd g) "main.go" = (cd ++ "/" ++ g ++ "/") ++ "main.go" := by
  simp only [joinPath, String.append_assoc]

theorem write_file_skip (fs : FS) (fn c : String) (h : fs.disk fn = some c) :
    write_file fs fn c = (false, fs) := by
  simp [write_file, h]

theorem write_file_disk_self (fs : FS) (fn c : String) :
    (write_file fs fn c).2.disk fn = some c := by
  unfold write_file
  cases hd : fs.disk fn with
  | none => simp
  | some e => by_cases he : e = c <;> simp [hd, he]

theorem write_file_disk_other (fs : FS) (fn c g : String) (h : ¬ g = fn) :
    (write_file fs fn c).2.disk g = fs.disk g := by
  unfold write_file
  cases hd : fs.disk fn with
  | none => simp [h]
  | some e => by_cases he : e = c <;> simp [hd, he, h]

theorem fsWrite_disk_other (fs : FS) (fn c g : String) (h : ¬ g = fn) :
    (fsWrite fs fn c).disk g = fs.disk g := by
  simp [fsWrite, h]

theorem stepWrite_disk_self (env : Env) (gf : Nat) (ctx : Ctx) (fs : FS) (proto : Protobuf) :
    (stepWrite env gf ctx fs proto).disk (protoFnOf ctx proto.module_name_plain)
      = some (print_proto gf proto) := by
  unfold stepWrite
  dsimp only
  split
  · rw [fsWrite_disk_other]
    · exact write_file_disk_self fs _ _
    · rw [protoFn_form, stubFn_form]
      exact proto_ne_go _ _
  · exact write_file_disk_self fs _ _

theorem stepWrite_disk_other (env : Env) (gf : Nat) (ctx : Ctx) (fs : FS) (proto : Protobuf)
    (g : String) (h1 : ¬ g = protoFnOf ctx proto.module_name_plain)
    (h2 : ¬ g = stubFn ctx proto) :
    (stepWrite env gf ctx fs proto).disk g = fs.disk g := by
  unfold stepWrite
  dsimp only
  split
  · rw [fsWrite_disk_other _ _ _ _ h2]
    exact write_file_disk_other fs _ _ _ h1
  · exact write_file_disk_other fs _ _ _ h1

theorem stepWrite_skip (env : Env) (gf : Nat) (ctx : Ctx) (fs : FS) (proto : Protobuf)
    (h : fs.disk (protoFnOf ctx proto.module_name_plain) = some (print_proto gf proto)) :
    stepWrite env gf ctx fs proto = fs := by
  unfold stepWrite
  dsimp only
  rw [write_file_skip _ _ _ h]
  rfl

/-! ### `emitStep` characterization -/

theorem emitStep_inactive (env : Env) (gf : Nat) (ctx : Ctx) (st : LoopState) (m : Stmt)
    (h : isActive m = false) : emitStep env gf ctx st m = .ok st := by
  by_cases hs : m.keyword = "submodule"
  · simp [emitStep, hs]
  · have he : (m.search "rpc").isEmpty = true := by
      simp only [isActive, Bool.and_eq_false_iff] at h
      rcases h with h | h
      · exact absurd (by simpa using h) hs
      · simpa using h
    have hlen : (m.search "rpc").length < 1 := by
      rw [List.isEmpty_iff] at he
      simp [he]
    simp [emitStep, hs, hlen]

theorem isActive_elim (m : Stmt) (h : isActive m = true) :
    ¬ m.keyword = "submodule" ∧ ¬ (m.search "rpc").length < 1 := by
  simp only [isActive, Bool.and_eq_true] at h
  obtain ⟨h1, h2⟩ := h
  refine ⟨by simpa using h1, ?_⟩
  have : ¬ (m.search "rpc").isEmpty = true := by simpa using h2
  rw [List.isEmpty_iff] at this
  have hlen : (m.search "rpc").length ≠ 0 := by
    intro h0
    exact this (List.length_eq_zero.mp h0)
  omega

theorem emitStep_active (env : Env) (gf : Nat) (ctx : Ctx) (st : LoopState) (m : Stmt)
    (h : isActive m = true) :
    emitStep env gf ctx st m = (buildProto env gf m).map (stepState env gf ctx st m) := by
  obtain ⟨hs, hr⟩ := isActive_elim m h
  unfold emitStep
  rw [if_neg hs, if_neg hr]
  cases hb : buildProto env gf m with
  | error e => rfl
  | ok proto => rfl

/-! ### Module-name preservation through rpc processing -/

theorem process_rpc_names (env : Env) (gf : Nat) (node : Stmt) (parent parent' : Protobuf)
    (h : process_rpc env gf node parent = .ok parent') :
    parent'.module_name_plain = parent.module_name_plain
    ∧ parent'.module_name = parent.module_name := by
  unfold process_rpc at h
  dsimp only at h
  split at h
  · exact absurd h (by simp)
  rename_i c_input in_empty he1 hv1 heq1
  split at h
  · exact absurd h (by simp)
  rename_i c_output out_empty he2 hv2 heq2
  simp only [Except.ok.injEq] at h
  subst h
  exact ⟨rfl, rfl⟩

theorem processRpcs_names (env : Env) (gf : Nat) :
    ∀ (rpcs : List Stmt) (p p' : Protobuf), processRpcs env gf rpcs p = .ok p' →
      p'.module_name_plain = p.module_name_plain ∧ p'.module_name = p.module_name := by
  intro rpcs
  induction rpcs with
  | nil =>
    intro p p' h
    simp only [processRpcs, Except.ok.injEq] at h
    subst h
    exact ⟨rfl, rfl⟩
  | cons r rest ih =>
    intro p p' h
    unfold processRpcs at h
    split at h
    · rename_i p1 h1
      obtain ⟨ha, hb⟩ := ih p1 p' h
      obtain ⟨hc, hd⟩ := process_rpc_names env gf r p p1 h1
      exact ⟨ha.trans hc, hb.trans hd⟩
    · exact absurd h (by simp)

theorem buildProto_names (env : Env) (gf : Nat) (m : Stmt) (proto : Protobuf)
    (h : buildProto env gf m = .ok proto) :
    proto.module_name_plain = plainOf m
    ∧ proto.module_name = snake_to_camel (plainOf m) := by
  unfold buildProto at h
  split at h
  · rename_i p hp
    simp only [Except.ok.injEq] at h
    subst h
    obtain ⟨ha, hb⟩ := processRpcs_names env gf (m.search "rpc") (Protobuf.init m.arg) p hp
    exact ⟨ha, hb⟩
  · exact absurd h (by simp)

/-! ### `emitLoop` lemmas -/

theorem emitLoop_pfx (env : Env) (gf : Nat) (ctx : Ctx) :
    ∀ (ms : List Stmt) (st st' : LoopState),
      emitLoop env gf ctx ms st = (st', none) →
      st'.pfx = if activeAnySonic ms = true then "sonic" else st.pfx := by
  intro ms
  induction ms with
  | nil =>
    intro st st' h
    simp only [emitLoop, Prod.mk.injEq] at h
    rw [← h.1]
    simp [activeAnySonic]
  | cons m rest ih =>
    intro st st' h
    rw [emitLoop] at h
    cases ha : isActive m with
    | false =>
      rw [emitStep_inactive env gf ctx st m ha] at h
      have hr := ih st st' h
      rw [hr]
      have hcons : activeAnySonic (m :: rest) = activeAnySonic rest := by
        simp [activeAnySonic, List.any_cons, ha]
      rw [hcons]
    | true =>
      rw [emitStep_active env gf ctx st m ha] at h
      cases hb : buildProto env gf m with
      | error e =>
        rw [hb] at h
        simp [Except.map] at h
      | ok proto =>
        rw [hb] at h
        simp only [Except.map] at h
        have hr := ih (stepState env gf ctx st m proto) st' h
        rw [hr]
        have hcons : activeAnySonic (m :: rest)
            = (isSonicName m.arg || activeAnySonic rest) := by
          simp [activeAnySonic, List.any_cons, ha]
        rw [hcons]
        cases hso : isSonicName m.arg <;> cases har : activeAnySonic rest <;>
          simp [stepState, hso, har]

theorem emitLoop_preserve_proto (env : Env) (gf : Nat) (ctx : Ctx) :
    ∀ (ms : List Stmt) (st stq : LoopState) (a : Option Abort),
      emitLoop env gf ctx ms st = (stq, a) →
      ∀ x : String,
        (∀ m ∈ ms, isActive m = true → ¬ protoFnOf ctx (plainOf m) = x ++ ".proto") →
        stq.fs.disk (x ++ ".proto") = st.fs.disk (x ++ ".proto") := by
  intro ms
  induction ms with
  | nil =>
    intro st stq a h x _
    simp only [emitLoop, Prod.mk.injEq] at h
    rw [← h.1]
  | cons m rest ih =>
    intro st stq a h x hx
    rw [emitLoop] at h
    cases ha : isActive m with
    | false =>
      rw [emitStep_inactive env gf ctx st m ha] at h
      exact ih st stq a h x (fun m' hm' => hx m' (List.mem_cons_of_mem m hm'))
    | true =>
      rw [emitStep_active env gf ctx st m ha] at h
      cases hb : buildProto env gf m with
      | error e =>
        rw [hb] at h
        simp only [Except.map] at h
        injection h with h1 _
        rw [← h1]
      | ok proto =>
        rw [hb] at h
        simp only [Except.map] at h
        have hpr := ih (stepState env gf ctx st m proto) stq a h x
          (fun m' hm' => hx m' (List.mem_cons_of_mem m hm'))
        rw [hpr]
        show (stepWrite env gf ctx st.fs proto).disk (x ++ ".proto") = _
        apply stepWrite_disk_other
        · rw [(buildProto_names env gf m proto hb).1]
          intro hcontra
          exact hx m (List.mem_cons_self m rest) ha hcontra.symm
        · rw [stubFn_form]
          exact proto_ne_go _ _

theorem activeProtoFns_cons_active (ctx : Ctx) (m : Stmt) (rest : List Stmt)
    (ha : isActive m = true) :
    activeProtoFns ctx (m :: rest) = protoFnOf ctx (plainOf m) :: activeProtoFns ctx rest := by
  simp [activeProtoFns, ha]

theorem activeProtoFns_cons_inactive (ctx : Ctx) (m : Stmt) (rest : List Stmt)
    (ha : isActive m = false) :
    activeProtoFns ctx (m :: rest) = activeProtoFns ctx rest := by
  simp [activeProtoFns, ha]

theorem emitLoop_post (env : Env) (gf : Nat) (ctx : Ctx) :
    ∀ (ms : List Stmt) (st stL : LoopState),
      emitLoop env gf ctx ms st = (stL, none) →
      (activeProtoFns ctx ms).Nodup →
      ∀ m ∈ ms, isActive m = true →
        ∃ proto, buildProto env gf m = .ok proto
          ∧ proto.module_name_plain = plainOf m
          ∧ stL.fs.disk (protoFnOf ctx (plainOf m)) = some (print_proto gf proto) := by
  intro ms
  induction ms with
  | nil =>
    intro st stL _ _ m hm
    exact absurd hm (List.not_mem_nil m)
  | cons m0 rest ih =>
    intro st stL h hn m hm ha
    rw [emitLoop] at h
    rcases List.mem_cons.mp hm with rfl | hmr
    · rw [emitStep_active env gf ctx st m ha] at h
      cases hb : buildProto env gf m with
      | error e =>
        rw [hb] at h
        simp [Except.map] at h
      | ok proto =>
        rw [hb] at h
        simp only [Except.map] at h
        refine ⟨proto, rfl, (buildProto_names env gf m proto hb).1, ?_⟩
        rw [activeProtoFns_cons_active ctx m rest ha] at hn
        have hnotin := (List.nodup_cons.mp hn).1
        have hxr : ∀ m' ∈ rest, isActive m' = true →
            ¬ protoFnOf ctx (plainOf m')
              = (ctx.outdir ++ "/" ++ plainOf m ++ "/" ++ plainOf m) ++ ".proto" := by
          intro m' hm' ha' hc
          rw [← protoFn_form] at hc
          apply hnotin
          rw [← hc]
          exact List.mem_map.mpr ⟨m', List.mem_filter.mpr ⟨hm', ha'⟩, rfl⟩
        have hpres := emitLoop_preserve_proto env gf ctx rest
          (stepState env gf ctx st m proto) stL none h
          (ctx.outdir ++ "/" ++ plainOf m ++ "/" ++ plainOf m) hxr
        rw [protoFn_form ctx (plainOf m), hpres, ← protoFn_form]
        show (stepWrite env gf ctx st.fs proto).disk _ = _
        rw [← (buildProto_names env gf m proto hb).1]
        exact stepWrite_disk_self env gf ctx st.fs proto
    · cases ha0 : isActive m0 with
      | false =>
        rw [emitStep_inactive env gf ctx st m0 ha0] at h
        rw [activeProtoFns_cons_inactive ctx m0 rest ha0] at hn
        exact ih st stL h hn m hmr ha
      | true =>
        rw [emitStep_active env gf ctx st m0 ha0] at h
        cases hb0 : buildProto env gf m0 with
        | error e =>
          rw [hb0] at h
          simp [Except.map] at h
        | ok proto0 =>
          rw [hb0] at h
          simp only [Except.map] at h
          rw [activeProtoFns_cons_active ctx m0 rest ha0] at hn
          exact ih (stepState env gf ctx st m0 proto0) stL h (List.nodup_cons.mp hn).2 m hmr ha

theorem emitLoop_run2 (env : Env) (gf : Nat) (ctx : Ctx) :
    ∀ (ms : List Stmt) (stA stB stA' : LoopState),
      emitLoop env gf ctx ms stA = (stA', none) →
      stB.pfx = stA.pfx → stB.server_mods = stA.server_mods →
      stB.mod_name_map = stA.mod_name_map → stB.rpcs_list = stA.rpcs_list →
      stB.mods_rpc_map = stA.mods_rpc_map →
      (∀ m ∈ ms, isActive m = true → ∀ proto, buildProto env gf m = .ok proto →
        stB.fs.disk (protoFnOf ctx proto.module_name_plain) = some (print_proto gf proto)) →
      emitLoop env gf ctx ms stB
        = ({ fs := stB.fs, pfx := stA'.pfx, server_mods := stA'.server_mods
             mod_name_map := stA'.mod_name_map, rpcs_list := stA'.rpcs_list
             mods_rpc_map := stA'.mods_rpc_map }, none) := by
  intro ms
  induction ms with
  | nil =>
    intro stA stB stA' h hp hs hm hr hmm _
    simp only [emitLoop, Prod.mk.injEq] at h
    rw [← h.1]
    rw [← hp, ← hs, ← hm, ← hr, ← hmm]
    rfl
  | cons m rest ih =>
    intro stA stB stA' h hp hs hm hr hmm hdisk
    rw [emitLoop] at h
    cases ha : isActive m with
    | false =>
      rw [emitStep_inactive env gf ctx stA m ha] at h
      rw [emitLoop, emitStep_inactive env gf ctx stB m ha]
      exact ih stA stB stA' h hp hs hm hr hmm
        (fun m' hm' => hdisk m' (List.mem_cons_of_mem m hm'))
    | true =>
      rw [emitStep_active env gf ctx stA m ha] at h
      cases hb : buildProto env gf m with
      | error e =>
        rw [hb] at h
        simp [Except.map] at h
      | ok proto =>
        rw [hb] at h
        simp only [Except.map] at h
        rw [emitLoop, emitStep_active env gf ctx stB m ha, hb]
        simp only [Except.map]
        have hskip : stepWrite env gf ctx stB.fs proto = stB.fs :=
          stepWrite_skip env gf ctx stB.fs proto
            (hdisk m (List.mem_cons_self m rest) ha proto hb)
        have happ := ih (stepState env gf ctx stA m proto)
          (stepState env gf ctx stB m proto) stA' h
          (by simp [stepState, hp]) (by simp [stepState, hs])
          (by simp [stepState, hm]) (by simp [stepState, hr])
          (by simp [stepState, hmm])
          (by
            intro m' hm' ha' proto' hb'
            show (stepWrite env gf ctx stB.fs proto).disk _ = _
            rw [hskip]
            exact hdisk m' (List.mem_cons_of_mem m hm') ha' proto' hb')
        rw [happ]
        have hfs : (stepState env gf ctx stB m proto).fs = stB.fs := hskip
        rw [hfs]

/-! ### Sticky artifact-name prefix (claim C10) -/

/-- C10: the artifact-name prefix starts as `"openconfig"` and is switched to
`"sonic"` by the first processed module (non-submodule, with at least one rpc)
whose name starts with `sonic`/`Sonic`, never switching back; after a
successful run the registration file sits at `<prefix>_register.go` and the
client program at `gnoi_<prefix>_client/main.go`, with the final prefix
`"sonic"` exactly when such a module occurs anywhere in the batch. -/
theorem c10_sticky_prefix (env : Env) (gf : Nat) (ctx : Ctx) (mods : List Stmt)
    (fs0 : FS) (st : LoopState)
    (h : emit env gf ctx mods fs0 = (st, none)) :
    st.pfx = (if activeAnySonic mods = true then "sonic" else "openconfig")
    ∧ st.fs.disk (joinPath ctx.server_stub_outdir (st.pfx ++ "_register.go"))
        = some (env.renderRegister st.server_mods st.pfx st.mod_name_map)
    ∧ st.fs.disk
          (joinPath (joinPath ctx.client_outdir ("gnoi_" ++ st.pfx ++ "_client")) "main.go")
        = some (env.renderClient st.rpcs_list st.pfx st.mods_rpc_map st.mod_name_map) := by
  unfold emit at h
  split at h
  · simp at h
  split at h
  · simp at h
  rename_i st0 heqL
  dsimp only at h
  simp only [Prod.mk.injEq] at h
  obtain ⟨hst, -⟩ := h
  subst hst
  refine ⟨emitLoop_pfx env gf ctx mods (initState fs0) st0 heqL, ?_, ?_⟩
  · have hne_cli : ¬ joinPath ctx.server_stub_outdir (st0.pfx ++ "_register.go")
        = joinPath (joinPath ctx.client_outdir ("gnoi_" ++ st0.pfx ++ "_client")) "main.go" := by
      rw [regFn_form, clientFn_form]
      exact register_ne_main _ _
    have hne_gy : ¬ joinPath ctx.server_stub_outdir (st0.pfx ++ "_register.go")
        = joinPath ctx.server_stub_outdir "gnoiyang.go" := by
      rw [regFn_form, gnoiFn_form]
      exact register_ne_gnoiyang _ _
    show (write_file (write_file (write_file st0.fs _ _).2 _ _).2 _ _).2.disk _ = _
    rw [write_file_disk_other _ _ _ _ hne_cli, write_file_disk_other _ _ _ _ hne_gy]
    exact write_file_disk_self _ _ _
  · exact write_file_disk_self _ _ _

/-- Witness for C10: one concrete sonic-named module flips the prefix and the
artifacts land at the sonic-named paths. -/
theorem c10_sticky_prefix_witness :
    (emit exEnv 8 exCtx [exModule] exFS).1.pfx
        = (if activeAnySonic [exModule] = true then "sonic" else "openconfig")
    ∧ (emit exEnv 8 exCtx [exModule] exFS).1.fs.disk
          (joinPath exCtx.server_stub_outdir
            ((emit exEnv 8 exCtx [exModule] exFS).1.pfx ++ "_register.go"))
        = some (exEnv.renderRegister (emit exEnv 8 exCtx [exModule] exFS).1.server_mods
            (emit exEnv 8 exCtx [exModule] exFS).1.pfx
            (emit exEnv 8 exCtx [exModule] exFS).1.mod_name_map)
    ∧ (emit exEnv 8 exCtx [exModule] exFS).1.fs.disk
          (joinPath (joinPath exCtx.client_outdir
            ("gnoi_" ++ (emit exEnv 8 exCtx [exModule] exFS).1.pfx ++ "_client")) "main.go")
        = some (exEnv.renderClient (emit exEnv 8 exCtx [exModule] exFS).1.rpcs_list
            (emit exEnv 8 exCtx [exModule] exFS).1.pfx
            (emit exEnv 8 exCtx [exModule] exFS).1.mods_rpc_map
            (emit exEnv 8 exCtx [exModule] exFS).1.mod_name_map) :=
  c10_sticky_prefix exEnv 8 exCtx [exModule] exFS (emit exEnv 8 exCtx [exModule] exFS).1 rfl

/-! ### Writer idempotence (claim C1) -/

/-- C1: `write_file` compares the freshly rendered bytes with the file on
disk and skips the write — and the server-stub regeneration — when they are
identical; therefore rerunning `emit` over the same input, starting from the
disk produced by a successful run, renders byte-identical `.proto` text,
performs zero writes of any kind (in particular zero server-stub rewrites),
and leaves the disk untouched.  The `Nodup` hypothesis says the processed
modules' `.proto` paths do not collide (distinct module names). -/
theorem c1_writer_idempotence (env : Env) (gf : Nat) (ctx : Ctx) (mods : List Stmt)
    (fs0 : FS) (st1 : LoopState)
    (hnodup : (activeProtoFns ctx mods).Nodup)
    (h1 : emit env gf ctx mods fs0 = (st1, none)) :
    (emit env gf ctx mods ⟨st1.fs.disk, []⟩).2 = none
    ∧ (emit env gf ctx mods ⟨st1.fs.disk, []⟩).1.fs.log = []
    ∧ (emit env gf ctx mods ⟨st1.fs.disk, []⟩).1.fs.disk = st1.fs.disk := by
  unfold emit at h1
  split at h1
  · simp at h1
  rename_i hdirs
  split at h1
  · simp at h1
  rename_i st0 heqL
  dsimp only at h1
  simp only [Prod.mk.injEq] at h1
  obtain ⟨hst1, -⟩ := h1
  have hF2 : st1.fs.disk (joinPath ctx.server_stub_outdir (st0.pfx ++ "_register.go"))
      = some (env.renderRegister st0.server_mods st0.pfx st0.mod_name_map) := by
    rw [← hst1]
    have hne_cli : ¬ joinPath ctx.server_stub_outdir (st0.pfx ++ "_register.go")
        = joinPath (joinPath ctx.client_outdir ("gnoi_" ++ st0.pfx ++ "_client")) "main.go" := by
      rw [regFn_form, clientFn_form]
      exact register_ne_main _ _
    have hne_gy : ¬ joinPath ctx.server_stub_outdir (st0.pfx ++ "_register.go")
        = joinPath ctx.server_stub_outdir "gnoiyang.go" := by
      rw [regFn_form, gnoiFn_form]
      exact register_ne_gnoiyang _ _
    show (write_file (write_file (write_file st0.fs _ _).2 _ _).2 _ _).2.disk _ = _
    rw [write_file_disk_other _ _ _ _ hne_cli, write_file_disk_other _ _ _ _ hne_gy]
    exact write_file_disk_self _ _ _
  have hF3 : st1.fs.disk (joinPath ctx.server_stub_outdir "gnoiyang.go")
      = some env.gnoiyangContent := by
    rw [← hst1]
    have hne_cli : ¬ joinPath ctx.server_stub_outdir "gnoiyang.go"
        = joinPath (joinPath ctx.client_outdir ("gnoi_" ++ st0.pfx ++ "_client")) "main.go" := by
      rw [gnoiFn_form, clientFn_form]
      exact gnoiyang_ne_main _ _
    show (write_file (write_file (write_file st0.fs _ _).2 _ _).2 _ _).2.disk _ = _
    rw [write_file_disk_other _ _ _ _ hne_cli]
    exact write_file_disk_self _ _ _
  have hF4 : st1.fs.disk
        (joinPath (joinPath ctx.client_outdir ("gnoi_" ++ st0.pfx ++ "_client")) "main.go")
      = some (env.renderClient st0.rpcs_list st0.pfx st0.mods_rpc_map st0.mod_name_map) := by
    rw [← hst1]
    exact write_file_disk_self _ _ _
  have hF1 : ∀ m ∈ mods, isActive m = true → ∀ proto, buildProto env gf m = .ok proto →
      st1.fs.disk (protoFnOf ctx proto.module_name_plain) = some (print_proto gf proto) := by
    intro m hm ha proto hb
    obtain ⟨proto', hb', hpl', hdisk'⟩ :=
      emitLoop_post env gf ctx mods (initState fs0) st0 heqL hnodup m hm ha
    rw [hb] at hb'
    have hpp := Except.ok.inj hb'
    rw [← hpp] at hdisk'
    have hplain := (buildProto_names env gf m proto hb).1
    rw [hplain, ← hst1]
    have hne1 : ¬ protoFnOf ctx (plainOf m)
        = joinPath (joinPath ctx.client_outdir ("gnoi_" ++ st0.pfx ++ "_client")) "main.go" := by
      rw [protoFn_form, clientFn_form]
      exact proto_ne_main _ _
    have hne2 : ¬ protoFnOf ctx (plainOf m) = joinPath ctx.server_stub_outdir "gnoiyang.go" := by
      rw [protoFn_form, gnoiFn_form]
      exact proto_ne_gnoiyang _ _
    have hne3 : ¬ protoFnOf ctx (plainOf m)
        = joinPath ctx.server_stub_outdir (st0.pfx ++ "_register.go") := by
      rw [protoFn_form, regFn_form]
      exact proto_ne_register _ _
    show (write_file (write_file (write_file st0.fs _ _).2 _ _).2 _ _).2.disk _ = _
    rw [write_file_disk_other _ _ _ _ hne1, write_file_disk_other _ _ _ _ hne2,
      write_file_disk_other _ _ _ _ hne3]
    exact hdisk'
  have hloop2 := emitLoop_run2 env gf ctx mods (initState fs0)
    (initState ⟨st1.fs.disk, []⟩) st0 heqL rfl rfl rfl rfl rfl hF1
  have hrun2 : emit env gf ctx mods ⟨st1.fs.disk, []⟩
      = ({ fs := ⟨st1.fs.disk, []⟩, pfx := st0.pfx, server_mods := st0.server_mods
           mod_name_map := st0.mod_name_map, rpcs_list := st0.rpcs_list
           mods_rpc_map := st0.mods_rpc_map }, none) := by
    unfold emit
    rw [if_neg hdirs, hloop2]
    dsimp only [initState]
    rw [write_file_skip ⟨st1.fs.disk, []⟩ _ _ hF2]
    dsimp only
    rw [write_file_skip ⟨st1.fs.disk, []⟩ _ _ hF3]
    dsimp only
    rw [write_file_skip ⟨st1.fs.disk, []⟩ _ _ hF4]
  rw [hrun2]
  exact ⟨rfl, rfl, rfl⟩

/-- Witness for C1: rerunning `emit` on the concrete batch over its own
output disk aborts nowhere, logs zero writes, and leaves the disk equal. -/
theorem c1_writer_idempotence_witness :
    (emit exEnv 8 exCtx [exModule]
        ⟨(emit exEnv 8 exCtx [exModule] exFS).1.fs.disk, []⟩).2 = none
    ∧ (emit exEnv 8 exCtx [exModule]
        ⟨(emit exEnv 8 exCtx [exModule] exFS).1.fs.disk, []⟩).1.fs.log = []
    ∧ (emit exEnv 8 exCtx [exModule]
        ⟨(emit exEnv 8 exCtx [exModule] exFS).1.fs.disk, []⟩).1.fs.disk
      = (emit exEnv 8 exCtx [exModule] exFS).1.fs.disk :=
  c1_writer_idempotence exEnv 8 exCtx [exModule] exFS
    (emit exEnv 8 exCtx [exModule] exFS).1 (by decide) rfl
